import Mathlib

/-!
# Verification of `pymatgen.io.lammps.data`

A shallow embedding of `src/pymatgen/io/lammps/data.py` (classes `LammpsData`
and `LammpsForceFieldData`) together with proofs of the specified properties.

Modelling conventions, used consistently below:

* A text line is modelled by its list of whitespace-separated tokens
  (`Line := List String`).  All regular expressions of the source separate
  their groups by `\s+` and anchor with `^\s*`, so matching is faithfully
  expressed at the token level; the exact amount of whitespace between
  tokens is not represented.
* A Python scalar stored in a record row is modelled by `Val`: an integer
  (`Val.vint`) or a float represented by its canonical decimal rendering
  (`Val.vfloat`), since `str` of a Python float is its shortest round-trip
  decimal form, which identifies the float uniquely.  `str(x)` becomes
  `Val.render`.
* `int(s)` / `float(s)` raising `ValueError` on malformed text is modelled
  by `Option`-returning token readers; an exception escaping the parser is
  an `Except.error` result.
* Python `dict` is modelled by an association list with insertion order and
  overwrite-on-assignment (`updateAssoc`); `x in d` and `d[x]` become
  `List.lookup`.
* Where Python would raise `IndexError`/`KeyError`/`NameError`, lookups are
  modelled with explicit `Option` state (e.g. the `n*_types` locals of
  `from_file`, which are unbound before the corresponding header line) or,
  for container indexing that no claim exercises, with a default value
  (`getD`); every theorem below is independent of those defaults or carries
  hypotheses keeping evaluation inside the defined domain.
-/

namespace LammpsVerif

/-! ## Characters and numeric tokens -/

/-- The character class `[0-9eE.+-]` used by the numeric-field patterns. -/
def numChar (c : Char) : Bool :=
  c.isDigit || c == 'e' || c == 'E' || c == '.' || c == '+' || c == '-'

/-- The character class `[0-9.]` used by the mass / coefficient patterns. -/
def massChar (c : Char) : Bool :=
  c.isDigit || c == '.'

/-- A token made of decimal digits only (the `\d+` groups); nonempty. -/
def isDigitsTok (s : String) : Bool :=
  !s.data.isEmpty && s.data.all Char.isDigit

/-- A nonempty token whose characters all lie in `[0-9.]`. -/
def isMassTok (s : String) : Bool :=
  !s.data.isEmpty && s.data.all massChar

/-- A nonempty token whose characters all lie in `[0-9eE.+-]`. -/
def isNumTok (s : String) : Bool :=
  !s.data.isEmpty && s.data.all numChar

/-- Numeric value of a decimal digit character. -/
def charVal (c : Char) : Nat := c.toNat - 48

/-- Value of a big-endian digit-character list, as computed by `int(...)`. -/
def parseDigits (l : List Char) : Nat :=
  l.foldl (fun a c => 10 * a + charVal c) 0

/-- `int(...)` on a digit-only token. -/
def parseNatTok (s : String) : Nat := parseDigits s.data

/-- Python `int(...)` on a character list: optional sign, then digits. -/
def pyIntChars : List Char → Option Int
  | [] => none
  | c :: r =>
      if c == '-' then
        if !r.isEmpty && r.all Char.isDigit then some (-(parseDigits r : Int)) else none
      else if c == '+' then
        if !r.isEmpty && r.all Char.isDigit then some (parseDigits r : Int) else none
      else if (c :: r).all Char.isDigit then some (parseDigits (c :: r) : Int) else none

/-- Python `int(tok)`: optional sign followed by decimal digits. -/
def pyIntOf (s : String) : Option Int :=
  pyIntChars s.data

/-- Drop one leading `+`/`-` sign. -/
def stripSign : List Char → List Char
  | c :: r => if c == '+' || c == '-' then r else c :: r
  | [] => []

/-- Exponent tail after `e`/`E`: optional sign, then at least one digit. -/
def expTail (l : List Char) : Bool :=
  let l := stripSign l
  !l.isEmpty && l.all Char.isDigit

/-- Optional exponent part of a float literal. -/
def expPart : List Char → Bool
  | [] => true
  | 'e' :: r => expTail r
  | 'E' :: r => expTail r
  | _ => false

/-- Acceptance of a character list by Python `float(...)`. -/
def validFloatChars (l0 : List Char) : Bool :=
  let l := stripSign l0
  let d1 := l.takeWhile Char.isDigit
  let r1 := l.dropWhile Char.isDigit
  match r1 with
  | '.' :: r2 =>
      let d2 := r2.takeWhile Char.isDigit
      let r3 := r2.dropWhile Char.isDigit
      (!d1.isEmpty || !d2.isEmpty) && expPart r3
  | _ => !d1.isEmpty && expPart r1

/-- Acceptance of a token by Python `float(...)` (numeric literals;
`inf`/`nan` spellings never arise from the matched character classes). -/
def validFloat (s : String) : Bool :=
  validFloatChars s.data

/-- Python `float(tok)`, keeping the accepted token as the float's identity. -/
def pyFloatOf (s : String) : Option String :=
  if validFloat s then some s else none

/-- Decimal digit to character. -/
def digitChar : Nat → Char
  | 0 => '0' | 1 => '1' | 2 => '2' | 3 => '3' | 4 => '4'
  | 5 => '5' | 6 => '6' | 7 => '7' | 8 => '8' | _ => '9'

/-- Little-endian digit characters of `n` (with fuel for structural recursion). -/
def natDigitsRev : Nat → Nat → List Char
  | 0, _ => []
  | _ + 1, 0 => []
  | f + 1, n + 1 => digitChar ((n + 1) % 10) :: natDigitsRev f ((n + 1) / 10)

/-- Decimal rendering of a natural number, as Python `str` produces it. -/
def natToTok (n : Nat) : String :=
  if n = 0 then "0" else ⟨(natDigitsRev n n).reverse⟩

/-- Decimal rendering of an integer, as Python `str` produces it. -/
def intToTok (i : Int) : String :=
  if i < 0 then "-" ++ natToTok i.natAbs else natToTok i.toNat

/-! Round-trip facts about digit rendering. -/

theorem charVal_digitChar : ∀ d, d < 10 → charVal (digitChar d) = d ∧ (digitChar d).isDigit = true := by
  decide

theorem parseDigits_append (l₁ l₂ : List Char) :
    parseDigits (l₁ ++ l₂) = l₂.foldl (fun a c => 10 * a + charVal c) (parseDigits l₁) := by
  simp [parseDigits, List.foldl_append]

theorem natDigitsRev_succ (f m : Nat) :
    natDigitsRev (f + 1) (m + 1) = digitChar ((m + 1) % 10) :: natDigitsRev f ((m + 1) / 10) := rfl

theorem natDigitsRev_spec : ∀ f n, 0 < n → n ≤ f →
    parseDigits (natDigitsRev f n).reverse = n ∧
    (natDigitsRev f n).all Char.isDigit = true ∧ natDigitsRev f n ≠ [] := by
  intro f
  induction f with
  | zero => intro n h1 h2; omega
  | succ f ih =>
    intro n h1 h2
    obtain ⟨m, rfl⟩ : ∃ m, n = m + 1 := ⟨n - 1, by omega⟩
    rw [natDigitsRev_succ]
    have hd := charVal_digitChar ((m + 1) % 10) (Nat.mod_lt _ (by norm_num))
    by_cases hq : (m + 1) / 10 = 0
    · have hm : m + 1 < 10 := by omega
      have hnil : natDigitsRev f ((m + 1) / 10) = [] := by
        rw [hq]; cases f <;> rfl
      rw [hnil]
      refine ⟨?_, ?_, by simp⟩
      · have hmod : (m + 1) % 10 = m + 1 := Nat.mod_eq_of_lt hm
        rw [hmod]
        simpa [parseDigits] using (charVal_digitChar (m + 1) hm).1
      · simp [hd.2]
    · have hq1 : 0 < (m + 1) / 10 := Nat.pos_of_ne_zero hq
      have hq2 : (m + 1) / 10 ≤ f := by
        have := Nat.div_lt_self (show 0 < m + 1 by omega) (show 1 < 10 by norm_num)
        omega
      obtain ⟨hp, ha, hne⟩ := ih ((m + 1) / 10) hq1 hq2
      refine ⟨?_, ?_, by simp⟩
      · rw [List.reverse_cons, parseDigits_append, hp]
        simp [hd.1]
        omega
      · simp [hd.2, List.all_eq_true] at ha ⊢
        exact ha

theorem natToTok_digits (n : Nat) : isDigitsTok (natToTok n) = true := by
  unfold natToTok
  by_cases h : n = 0
  · simp [h]; decide
  · obtain ⟨hp, ha, hne⟩ := natDigitsRev_spec n n (Nat.pos_of_ne_zero h) le_rfl
    simp [h, isDigitsTok]
    constructor
    · simpa using hne
    · simp [List.all_eq_true] at ha ⊢
      exact fun c hc => ha c (by simpa using hc)

theorem parseNatTok_natToTok (n : Nat) : parseNatTok (natToTok n) = n := by
  unfold natToTok parseNatTok
  by_cases h : n = 0
  · simp [h]; decide
  · obtain ⟨hp, _, _⟩ := natDigitsRev_spec n n (Nat.pos_of_ne_zero h) le_rfl
    simpa [h] using hp

/-! ## Scalar values and rows -/

/-- A Python scalar held in a record row: an integer, or a float identified
by its canonical decimal rendering (Python `repr`). -/
inductive Val where
  | vint (i : Int)
  | vfloat (tok : String)
  deriving DecidableEq, Repr

/-- `str(x)` for a scalar. -/
def Val.render : Val → String
  | .vint i => intToTok i
  | .vfloat t => t

/-- A record row, e.g. one atom or one coefficient line. -/
abbrev Row := List Val

/-- `" ".join([str(x) for x in row])`, at the token level. -/
def renderRow (r : Row) : List String := r.map Val.render

/-! ## The two record classes (`__init__`) -/

/-- `LammpsData`: counts are derived from the stored lists at construction
(lines 37-42 of the source). -/
structure LammpsDataRec where
  boxSize : List (Val × Val)
  natoms : Nat
  natomTypes : Nat
  atomicMasses : List Row
  atomsData : List Row
  deriving Repr, DecidableEq

/-- `LammpsData.__init__`. -/
def mkLammpsData (boxSize : List (Val × Val)) (atomicMasses : List Row)
    (atomsData : List Row) : LammpsDataRec :=
  { boxSize := boxSize
    natoms := atomsData.length
    natomTypes := atomicMasses.length
    atomicMasses := atomicMasses
    atomsData := atomsData }

/-- `LammpsForceFieldData`: the force-field record with all bonded sections. -/
structure FFDataRec where
  boxSize : List (Val × Val)
  natoms : Nat
  natomTypes : Nat
  atomicMasses : List Row
  atomsData : List Row
  nbondTypes : Nat
  nangleTypes : Nat
  ndihTypes : Nat
  nimdihTypes : Nat
  nbonds : Nat
  nangles : Nat
  ndih : Nat
  nimdihs : Nat
  pairCoeffs : List Row
  bondCoeffs : List Row
  angleCoeffs : List Row
  dihedralCoeffs : List Row
  improperCoeffs : List Row
  bondsData : List Row
  anglesData : List Row
  dihedralsData : List Row
  imdihedralsData : List Row
  deriving Repr, DecidableEq

/-- `LammpsForceFieldData.__init__` (lines 288-313): every count field is the
length of the corresponding list argument. -/
def mkFFData (boxSize : List (Val × Val)) (atomicMasses pairCoeffs bondCoeffs
    angleCoeffs dihedralCoeffs improperCoeffs atomsData bondsData anglesData
    dihedralsData imdihedralsData : List Row) : FFDataRec :=
  { boxSize := boxSize
    natoms := atomsData.length
    natomTypes := atomicMasses.length
    atomicMasses := atomicMasses
    atomsData := atomsData
    nbondTypes := bondCoeffs.length
    nangleTypes := angleCoeffs.length
    ndihTypes := dihedralCoeffs.length
    nimdihTypes := improperCoeffs.length
    nbonds := bondsData.length
    nangles := anglesData.length
    ndih := dihedralsData.length
    nimdihs := imdihedralsData.length
    pairCoeffs := pairCoeffs
    bondCoeffs := bondCoeffs
    angleCoeffs := angleCoeffs
    dihedralCoeffs := dihedralCoeffs
    improperCoeffs := improperCoeffs
    bondsData := bondsData
    anglesData := anglesData
    dihedralsData := dihedralsData
    imdihedralsData := imdihedralsData }

/-- C9: in both constructors every stored count equals the length of the
corresponding stored list.  The embedding is pure, so the fields, set once
here, are never mutated by any other operation. -/
theorem c9_counts_consistent (box : List (Val × Val))
    (masses pair bond angle dihc impc atoms bonds angles dihs imps : List Row) :
    (mkLammpsData box masses atoms).natoms = (mkLammpsData box masses atoms).atomsData.length ∧
    (mkLammpsData box masses atoms).natomTypes = (mkLammpsData box masses atoms).atomicMasses.length ∧
    (mkFFData box masses pair bond angle dihc impc atoms bonds angles dihs imps).natoms =
      (mkFFData box masses pair bond angle dihc impc atoms bonds angles dihs imps).atomsData.length ∧
    (mkFFData box masses pair bond angle dihc impc atoms bonds angles dihs imps).natomTypes =
      (mkFFData box masses pair bond angle dihc impc atoms bonds angles dihs imps).atomicMasses.length ∧
    (mkFFData box masses pair bond angle dihc impc atoms bonds angles dihs imps).nbonds =
      (mkFFData box masses pair bond angle dihc impc atoms bonds angles dihs imps).bondsData.length ∧
    (mkFFData box masses pair bond angle dihc impc atoms bonds angles dihs imps).nangles =
      (mkFFData box masses pair bond angle dihc impc atoms bonds angles dihs imps).anglesData.length ∧
    (mkFFData box masses pair bond angle dihc impc atoms bonds angles dihs imps).ndih =
      (mkFFData box masses pair bond angle dihc impc atoms bonds angles dihs imps).dihedralsData.length ∧
    (mkFFData box masses pair bond angle dihc impc atoms bonds angles dihs imps).nimdihs =
      (mkFFData box masses pair bond angle dihc impc atoms bonds angles dihs imps).imdihedralsData.length ∧
    (mkFFData box masses pair bond angle dihc impc atoms bonds angles dihs imps).nbondTypes =
      (mkFFData box masses pair bond angle dihc impc atoms bonds angles dihs imps).bondCoeffs.length ∧
    (mkFFData box masses pair bond angle dihc impc atoms bonds angles dihs imps).nangleTypes =
      (mkFFData box masses pair bond angle dihc impc atoms bonds angles dihs imps).angleCoeffs.length ∧
    (mkFFData box masses pair bond angle dihc impc atoms bonds angles dihs imps).ndihTypes =
      (mkFFData box masses pair bond angle dihc impc atoms bonds angles dihs imps).dihedralCoeffs.length ∧
    (mkFFData box masses pair bond angle dihc impc atoms bonds angles dihs imps).nimdihTypes =
      (mkFFData box masses pair bond angle dihc impc atoms bonds angles dihs imps).improperCoeffs.length :=
  ⟨rfl, rfl, rfl, rfl, rfl, rfl, rfl, rfl, rfl, rfl, rfl, rfl⟩

/-! ## `LammpsForceFieldData.get_param_coeff` (lines 371-395) -/

/-- Python `dict` assignment `m[k] = v`: overwrite in place, keep insertion
order, append if absent. -/
def updateAssoc : List (List String × Nat) → List String → Nat → List (List String × Nat)
  | [], k, v => [(k, v)]
  | (a, b) :: t, k, v => if a = k then (a, v) :: t else (a, b) :: updateAssoc t k v

/-- The `for i, item in enumerate(param.items())` loop of `get_param_coeff`:
append `[i+1] + list(item[1])` to the coefficient table and set
`param_map[item[0]] = i+1`. -/
def getParamCoeffLoop : List (List String × List Val) → Nat → List Row →
    List (List String × Nat) → List Row × List (List String × Nat)
  | [], _, coeffs, pmap => (coeffs, pmap)
  | (lab, vals) :: rest, i, coeffs, pmap =>
      getParamCoeffLoop rest (i + 1) (coeffs ++ [Val.vint (i + 1) :: vals])
        (updateAssoc pmap lab (i + 1))

/-- `get_param_coeff`: the requested parameter family is `none` when the
force field has no such attribute (→ `AttributeError`), and otherwise an
ordered dictionary given as a list of `(label, values)` items (an empty or
`None`-valued attribute is the empty list, which is falsy). -/
def getParamCoeff (param : Option (List (List String × List Val))) :
    Except Unit (List Row × List (List String × Nat)) :=
  match param with
  | none => Except.error ()
  | some p => Except.ok (getParamCoeffLoop p 0 [] [])

theorem lookup_updateAssoc_self (m : List (List String × Nat)) (k : List String) (v : Nat) :
    List.lookup k (updateAssoc m k v) = some v := by
  induction m with
  | nil => simp [updateAssoc, List.lookup]
  | cons hd t ih =>
    obtain ⟨a, b⟩ := hd
    by_cases h : a = k
    · subst h
      simp [updateAssoc, List.lookup]
    · have hba : (k == a) = false := by simp [Ne.symm h]
      simp [updateAssoc, h, List.lookup, hba, ih]

theorem lookup_updateAssoc_ne (m : List (List String × Nat)) (k k' : List String) (v : Nat)
    (h : k' ≠ k) : List.lookup k' (updateAssoc m k v) = List.lookup k' m := by
  have hkk : (k' == k) = false := by simp [h]
  induction m with
  | nil => simp [updateAssoc, List.lookup, hkk]
  | cons hd t ih =>
    obtain ⟨a, b⟩ := hd
    by_cases ha : a = k
    · subst ha
      simp [updateAssoc, List.lookup, hkk]
    · simp only [updateAssoc, if_neg ha, List.lookup, ih]

theorem getParamCoeffLoop_fst : ∀ (items : List (List String × List Val)) (i : Nat)
    (cs : List Row) (m : List (List String × Nat)),
    (getParamCoeffLoop items i cs m).1 =
      cs ++ (List.range items.length).map
        (fun (j : Nat) => Val.vint (i + j + 1 : Nat) :: ((items.get? j).getD ([], [])).2) := by
  intro items
  induction items with
  | nil => intro i cs m; simp [getParamCoeffLoop]
  | cons hd t ih =>
    intro i cs m
    obtain ⟨lab, vals⟩ := hd
    rw [show getParamCoeffLoop ((lab, vals) :: t) i cs m =
      getParamCoeffLoop t (i + 1) (cs ++ [Val.vint (i + 1 : Nat) :: vals]) (updateAssoc m lab (i + 1)) from rfl]
    rw [ih, List.length_cons, List.range_succ_eq_map]
    simp only [List.map_cons, List.map_map, List.append_assoc, List.singleton_append]
    congr 1
    have h0 : i + 0 + 1 = i + 1 := by omega
    rw [h0]
    have hmap : List.map (fun (j : Nat) => Val.vint (i + 1 + j + 1 : Nat) :: ((t.get? j).getD ([], [])).2) (List.range t.length) =
        List.map ((fun (j : Nat) => Val.vint (i + j + 1 : Nat) :: ((((lab, vals) :: t).get? j).getD ([], [])).2) ∘ Nat.succ) (List.range t.length) := by
      apply List.map_congr_left
      intro a ha
      simp only [Function.comp, List.get?, List.cons.injEq, Val.vint.injEq, and_true]
      omega
    rw [hmap]
    rfl

theorem getParamCoeffLoop_snd_not_mem : ∀ (items : List (List String × List Val)) (i : Nat)
    (cs : List Row) (m : List (List String × Nat)) (k : List String),
    k ∉ items.map Prod.fst →
    List.lookup k (getParamCoeffLoop items i cs m).2 = List.lookup k m := by
  intro items
  induction items with
  | nil => intro i cs m k _; rfl
  | cons hd t ih =>
    intro i cs m k hk
    obtain ⟨lab, vals⟩ := hd
    simp only [List.map_cons, List.mem_cons] at hk
    push_neg at hk
    rw [show getParamCoeffLoop ((lab, vals) :: t) i cs m =
      getParamCoeffLoop t (i + 1) (cs ++ [Val.vint (i + 1) :: vals]) (updateAssoc m lab (i + 1)) from rfl]
    rw [ih _ _ _ _ hk.2, lookup_updateAssoc_ne _ _ _ _ hk.1]

theorem getParamCoeffLoop_snd : ∀ (items : List (List String × List Val)) (i : Nat)
    (cs : List Row) (m : List (List String × Nat)),
    (items.map Prod.fst).Nodup →
    ∀ j (hj : j < items.length),
      List.lookup (items.get ⟨j, hj⟩).1 (getParamCoeffLoop items i cs m).2 = some (i + j + 1) := by
  intro items
  induction items with
  | nil => intro i cs m _ j hj; simp at hj
  | cons hd t ih =>
    intro i cs m hnd j hj
    obtain ⟨lab, vals⟩ := hd
    simp only [List.map_cons, List.nodup_cons] at hnd
    rw [show getParamCoeffLoop ((lab, vals) :: t) i cs m =
      getParamCoeffLoop t (i + 1) (cs ++ [Val.vint (i + 1) :: vals]) (updateAssoc m lab (i + 1)) from rfl]
    match j with
    | 0 =>
        simp only [List.get]
        rw [getParamCoeffLoop_snd_not_mem _ _ _ _ _ hnd.1, lookup_updateAssoc_self]
    | j + 1 =>
        have hj' : j < t.length := by simpa using hj
        have := ih (i + 1) (cs ++ [Val.vint (i + 1) :: vals]) (updateAssoc m lab (i + 1)) hnd.2 j hj'
        simpa [Nat.add_assoc, Nat.add_comm, Nat.add_left_comm] using this

/-- C8: `get_param_coeff` raises exactly when the family is structurally
absent; a present-but-empty family yields an empty table and empty map; a
non-empty family yields rows `[i+1] + values` (ids dense from 1) and a
label → id map. -/
theorem c8_get_param_coeff (p : List (List String × List Val))
    (hnd : (p.map Prod.fst).Nodup) :
    getParamCoeff none = Except.error () ∧
    getParamCoeff (some []) = Except.ok ([], []) ∧
    ∃ coeffs pmap, getParamCoeff (some p) = Except.ok (coeffs, pmap) ∧
      coeffs.length = p.length ∧
      (∀ j (hj : j < p.length), coeffs.get? j = some (Val.vint (j + 1) :: (p.get ⟨j, hj⟩).2)) ∧
      (∀ j (hj : j < p.length), List.lookup (p.get ⟨j, hj⟩).1 pmap = some (j + 1)) := by
  refine ⟨rfl, rfl, (getParamCoeffLoop p 0 [] []).1, (getParamCoeffLoop p 0 [] []).2, rfl, ?_, ?_, ?_⟩
  · rw [getParamCoeffLoop_fst]
    simp
  · intro j hj
    rw [getParamCoeffLoop_fst]
    simp only [List.nil_append, List.get?_map, List.get?_range hj, Option.map_some']
    rw [List.get?_eq_get hj]
    simp [Nat.zero_add]
  · intro j hj
    have := getParamCoeffLoop_snd p 0 [] [] hnd j hj
    simpa using this

/-- Witness for C8 at a concrete two-entry parameter family. -/
theorem c8_get_param_coeff_witness :
    ((([(["c1", "c2"], [Val.vfloat "1.5"]), (["c2", "c3"], [Val.vfloat "2.5"])] :
        List (List String × List Val)).map Prod.fst).Nodup) ∧
    (getParamCoeff none = Except.error () ∧
     getParamCoeff (some []) = Except.ok ([], []) ∧
     ∃ coeffs pmap,
       getParamCoeff (some [(["c1", "c2"], [Val.vfloat "1.5"]), (["c2", "c3"], [Val.vfloat "2.5"])]) =
         Except.ok (coeffs, pmap) ∧
       coeffs.length = 2 ∧
       (∀ j (hj : j < ([(["c1", "c2"], [Val.vfloat "1.5"]), (["c2", "c3"], [Val.vfloat "2.5"])] :
           List (List String × List Val)).length),
         coeffs.get? j = some (Val.vint (j + 1) ::
           (([(["c1", "c2"], [Val.vfloat "1.5"]), (["c2", "c3"], [Val.vfloat "2.5"])] :
             List (List String × List Val)).get ⟨j, hj⟩).2)) ∧
       (∀ j (hj : j < ([(["c1", "c2"], [Val.vfloat "1.5"]), (["c2", "c3"], [Val.vfloat "2.5"])] :
           List (List String × List Val)).length),
         List.lookup (([(["c1", "c2"], [Val.vfloat "1.5"]), (["c2", "c3"], [Val.vfloat "2.5"])] :
           List (List String × List Val)).get ⟨j, hj⟩).1 pmap = some (j + 1))) :=
  ⟨by decide, c8_get_param_coeff _ (by decide)⟩

/-! ## Symbolic type resolution inside `get_param_data` (lines 508-519) -/

/-- The type-label resolution of `get_param_data`: try the label as given,
then the label reversed, else unresolved; the resolved key is looked up in
the coefficient map. -/
def resolveTypeId (pmap : List (List String × Nat)) (label : List String) : Option Nat :=
  let key : Option (List String) :=
    if (List.lookup label pmap).isSome then some label
    else if (List.lookup label.reverse pmap).isSome then some label.reverse
    else none
  match key with
  | some k => List.lookup k pmap
  | none => none

/-- C7 counterexample: with both orientations registered under different
ids, an interaction declared as `(B,A)` resolves to the id of `(B,A)`
itself (2), not to the id 1 that `(A,B)` is registered with — the claim
fails as stated. -/
theorem c7_symmetric_resolution_counterexample :
    List.lookup ["a", "b"] [(["a", "b"], 1), (["b", "a"], 2)] = some 1 ∧
    resolveTypeId [(["a", "b"], 1), (["b", "a"], 2)] ["b", "a"] = some 2 ∧
    (2 : Nat) ≠ 1 := by
  decide

/-- C7 amended: if `(A,B)` is registered with id `c` and the reversed label
`(B,A)` is not itself registered, then an interaction declared `(B,A)`
resolves to `c`. -/
theorem c7_symmetric_resolution (pmap : List (List String × Nat)) (lab : List String) (c : Nat)
    (hrev : List.lookup lab.reverse pmap = none)
    (hfwd : List.lookup lab pmap = some c) :
    resolveTypeId pmap lab.reverse = some c := by
  simp [resolveTypeId, hrev, List.reverse_reverse, hfwd]

/-- Witness for C7 at a concrete one-entry map. -/
theorem c7_symmetric_resolution_witness :
    (List.lookup (["ca", "cb"] : List String).reverse [(["ca", "cb"], 7)] = none) ∧
    (List.lookup (["ca", "cb"] : List String) [(["ca", "cb"], 7)] = some 7) ∧
    resolveTypeId [(["ca", "cb"], 7)] (["ca", "cb"] : List String).reverse = some 7 := by
  refine ⟨by decide, by decide, ?_⟩
  exact c7_symmetric_resolution _ ["ca", "cb"] 7 (by decide) (by decide)

/-! ## `LammpsForceFieldData.get_atoms_data` (lines 397-447) -/

/-- A site of the assembled molecule: element symbol and coordinates. -/
structure Site where
  symbol : String
  x : Val
  y : Val
  z : Val
  deriving DecidableEq, Repr

/-- The part of a `Topology` object used by `get_atoms_data`: its `charges`
attribute (`none` models a falsy/absent charge list). -/
structure Topology where
  charges : Option (List Val)
  deriving DecidableEq, Repr

/-- The id-assignment loops of `get_atoms_data` (lines 421-431).  For each
molecule type `(n, r)` (atom count `len(mols[mol_type])`, replica count
`mols_number[mol_type]`), for each replica `num`, for each local atom `a`:
`atom_id = num * n + a + shift` is inserted into `atom_to_mol` with value
`(mol_type, a)` and appended to the current replica's `molid_to_atomid`
row; afterwards `shift += n * r`.  The first component lists the
`atom_to_mol` insertions in order; the second is `molid_to_atomid`. -/
def buildTransAux : List (Nat × Nat) → Nat → Nat → List (Nat × (Nat × Nat)) × List (List Nat)
  | [], _, _ => ([], [])
  | (n, r) :: rest, t, shift =>
      let entries := (List.range r).flatMap
        (fun num => (List.range n).map (fun a => (num * n + a + shift, (t, a))))
      let mols := (List.range r).map (fun num => (List.range n).map (fun a => num * n + a + shift))
      let res := buildTransAux rest (t + 1) (shift + n * r)
      (entries ++ res.1, mols ++ res.2)

/-- Total atom count `Σ nᵢ·rᵢ` of the assembly. -/
def totalAtoms (pairs : List (Nat × Nat)) : Nat :=
  (pairs.map (fun p => p.1 * p.2)).sum

/-- Which molecule-type block a 0-based global atom id falls into
(stated from the spec's block description, to compare with the code). -/
def specTypeOf : List (Nat × Nat) → Nat → Nat
  | [], _ => 0
  | (n, r) :: rest, i => if i < n * r then 0 else specTypeOf rest (i - n * r) + 1

/-- The local atom index of a 0-based global atom id within its replica
(stated from the spec's block description, to compare with the code). -/
def specLocalOf : List (Nat × Nat) → Nat → Nat
  | [], _ => 0
  | (n, r) :: rest, i => if i < n * r then i % n else specLocalOf rest (i - n * r)

/-- `get_atoms_data` of `LammpsForceFieldData` (lines 397-447): builds the
local→global translation, then emits one record per site of the assembled
molecule: `[atom_id, mol_type, atom_type, charge, x, y, z]`, with
`atom_id = i+1`, `mol_type = atom_to_mol[i][0] + 1`,
`mol_atom_id = atom_to_mol[i][1] + 1`, atom type looked up in the
symbol → (type id, mass) table, and the charge pulled from
`topologies[mol_type-1].charges[mol_atom_id-1]` when charge data exists
(0.0 otherwise).  `mols` enters only through `len(mols[mol_type])`, so it
is passed as the list of per-type atom counts. -/
def ffAtomRow (atomToMol : List (Nat × (Nat × Nat))) (amd : List (String × (Nat × Val)))
    (tops : List Topology) (p : Nat × Site) : Row :=
  let i := p.1
  let site := p.2
  let atomType := ((List.lookup site.symbol amd).getD (0, Val.vint 0)).1
  let q := (List.lookup i atomToMol).getD (0, 0)
  let molType := q.1 + 1
  let molAtomId := q.2 + 1
  let charge : Val :=
    match (tops.getD 0 ⟨none⟩).charges with
    | none => Val.vfloat "0.0"
    | some _ =>
        match (tops.getD (molType - 1) ⟨none⟩).charges with
        | some l =>
            if l.isEmpty then Val.vfloat "0.0"
            else l.getD (molAtomId - 1) (Val.vfloat "0.0")
        | none => Val.vfloat "0.0"
  [Val.vint (i + 1 : Nat), Val.vint (molType : Nat), Val.vint (atomType : Nat),
    charge, site.x, site.y, site.z]

def ffGetAtomsData (molLens : List Nat) (molsNumber : List Nat) (molecule : List Site)
    (amd : List (String × (Nat × Val))) (tops : List Topology) :
    List Row × List (List Nat) :=
  let trans := buildTransAux (molLens.zip molsNumber) 0 0
  (molecule.enum.map (ffAtomRow trans.1 amd tops), trans.2)

theorem blockKeys (n r shift : Nat) :
    (List.range r).flatMap (fun num => (List.range n).map (fun a => num * n + a + shift)) =
      List.range' shift (n * r) := by
  induction r with
  | zero => simp
  | succ r ih =>
    rw [List.range_succ, List.flatMap_append, ih]
    have hblock : (List.range n).map (fun a => r * n + a + shift) = List.range' (shift + n * r) n := by
      rw [List.range'_eq_map_range]
      apply List.map_congr_left
      intro a _
      ring
    have happ := List.range'_append shift (n * r) n 1
    simp only [one_mul] at happ
    have hmul : n * (r + 1) = n + n * r := by ring
    rw [hmul, ← happ]
    simp [hblock]

theorem buildTransAux_keys : ∀ (pairs : List (Nat × Nat)) (t shift : Nat),
    ((buildTransAux pairs t shift).1.map Prod.fst) = List.range' shift (totalAtoms pairs) := by
  intro pairs
  induction pairs with
  | nil => intro t shift; simp [buildTransAux, totalAtoms]
  | cons hd rest ih =>
    intro t shift
    obtain ⟨n, r⟩ := hd
    show (((List.range r).flatMap
        (fun num => (List.range n).map (fun a => (num * n + a + shift, (t, a)))) ++
        (buildTransAux rest (t + 1) (shift + n * r)).1).map Prod.fst) = _
    rw [List.map_append, ih, List.map_flatMap]
    simp only [List.map_map]
    have : ∀ num : Nat, (List.map (Prod.fst ∘ fun a => (num * n + a + shift, (t, a))) (List.range n)) =
        (List.range n).map (fun a => num * n + a + shift) := by
      intro num; rfl
    simp only [this]
    rw [blockKeys]
    have happ := List.range'_append shift (n * r) (totalAtoms rest) 1
    simp only [one_mul] at happ
    rw [happ]
    have : totalAtoms ((n, r) :: rest) = totalAtoms rest + n * r := by
      simp [totalAtoms]
      ring
    rw [this]

theorem buildTransAux_mols_join : ∀ (pairs : List (Nat × Nat)) (t shift : Nat),
    (buildTransAux pairs t shift).2.flatten = List.range' shift (totalAtoms pairs) := by
  intro pairs
  induction pairs with
  | nil => intro t shift; simp [buildTransAux, totalAtoms]
  | cons hd rest ih =>
    intro t shift
    obtain ⟨n, r⟩ := hd
    show (((List.range r).map (fun num => (List.range n).map (fun a => num * n + a + shift))) ++
        (buildTransAux rest (t + 1) (shift + n * r)).2).flatten = _
    rw [List.flatten_append, ih]
    have hfm : ((List.range r).map (fun num => (List.range n).map (fun a => num * n + a + shift))).flatten =
        (List.range r).flatMap (fun num => (List.range n).map (fun a => num * n + a + shift)) := by
      simp [List.flatMap_def]
    rw [hfm, blockKeys]
    have happ := List.range'_append shift (n * r) (totalAtoms rest) 1
    simp only [one_mul] at happ
    rw [happ]
    have : totalAtoms ((n, r) :: rest) = totalAtoms rest + n * r := by
      simp [totalAtoms]
      ring
    rw [this]

theorem buildTransAux_mols_length : ∀ (pairs : List (Nat × Nat)) (t shift : Nat),
    (buildTransAux pairs t shift).2.length = (pairs.map Prod.snd).sum := by
  intro pairs
  induction pairs with
  | nil => intro t shift; simp [buildTransAux]
  | cons hd rest ih =>
    intro t shift
    obtain ⟨n, r⟩ := hd
    show (((List.range r).map (fun num => (List.range n).map (fun a => num * n + a + shift))) ++
        (buildTransAux rest (t + 1) (shift + n * r)).2).length = _
    simp [ih]

theorem buildTransAux_mem : ∀ (pairs : List (Nat × Nat)) (t shift i : Nat),
    i < totalAtoms pairs →
    (shift + i, (t + specTypeOf pairs i, specLocalOf pairs i)) ∈ (buildTransAux pairs t shift).1 := by
  intro pairs
  induction pairs with
  | nil => intro t shift i hi; simp [totalAtoms] at hi
  | cons hd rest ih =>
    intro t shift i hi
    obtain ⟨n, r⟩ := hd
    show _ ∈ ((List.range r).flatMap
        (fun num => (List.range n).map (fun a => (num * n + a + shift, (t, a)))) ++
        (buildTransAux rest (t + 1) (shift + n * r)).1)
    rw [List.mem_append]
    by_cases hlt : i < n * r
    · left
      have hn : 0 < n := by
        by_contra hcon
        have : n = 0 := by omega
        subst this
        simp at hlt
      rw [List.mem_flatMap]
      refine ⟨i / n, ?_, ?_⟩
      · rw [List.mem_range]
        by_contra hcon
        push_neg at hcon
        have h1 : r * n ≤ (i / n) * n := Nat.mul_le_mul_right n hcon
        have h2 : r * n ≤ i := le_trans h1 (Nat.div_mul_le_self i n)
        have h3 : n * r = r * n := Nat.mul_comm n r
        omega
      · rw [List.mem_map]
        have h1 : specTypeOf ((n, r) :: rest) i = 0 := by simp [specTypeOf, hlt]
        have h2 : specLocalOf ((n, r) :: rest) i = i % n := by simp [specLocalOf, hlt]
        rw [h1, h2]
        refine ⟨i % n, List.mem_range.mpr (Nat.mod_lt _ hn), ?_⟩
        have hdm : i / n * n + i % n = i := by
          rw [Nat.mul_comm]
          exact Nat.div_add_mod i n
        simp only [Prod.mk.injEq, Nat.add_zero, and_true]
        generalize hw : i / n * n = w at hdm ⊢
        generalize hu : i % n = u at hdm ⊢
        omega
    · right
      have hrest : i - n * r < totalAtoms rest := by
        have : totalAtoms ((n, r) :: rest) = totalAtoms rest + n * r := by
          simp [totalAtoms]; ring
        omega
      have := ih (t + 1) (shift + n * r) (i - n * r) hrest
      have h1 : specTypeOf ((n, r) :: rest) i = specTypeOf rest (i - n * r) + 1 := by
        simp [specTypeOf, hlt]
      have h2 : specLocalOf ((n, r) :: rest) i = specLocalOf rest (i - n * r) := by
        simp [specLocalOf, hlt]
      rw [h1, h2]
      have heq : shift + n * r + (i - n * r) = shift + i := by omega
      have heq2 : t + 1 + specTypeOf rest (i - n * r) = t + (specTypeOf rest (i - n * r) + 1) := by omega
      rw [heq, heq2] at this
      exact this

/-- `dict` lookup by key with distinct keys returns the stored value. -/
theorem lookup_of_mem_of_nodup {β : Type} (l : List (Nat × β)) (k : Nat) (v : β)
    (hnd : (l.map Prod.fst).Nodup) (hm : (k, v) ∈ l) : List.lookup k l = some v := by
  induction l with
  | nil => simp at hm
  | cons hd tl ih =>
    obtain ⟨a, b⟩ := hd
    simp only [List.map_cons, List.nodup_cons] at hnd
    rcases List.mem_cons.mp hm with heq | htl
    · cases heq
      simp [List.lookup]
    · have hka : k ≠ a := by
        intro h
        subst h
        exact hnd.1 (List.mem_map.mpr ⟨(k, v), htl, rfl⟩)
      have : (k == a) = false := by simp [hka]
      simp only [List.lookup, this]
      exact ih hnd.2 htl

/-- C6: the local→global translation built by `get_atoms_data` covers
exactly `Σ rᵢ·nᵢ` distinct global atom ids — contiguous, starting at 1
once the writer's `+1` offset is applied, in concatenation order — and is
a bijection: the `atom_to_mol` insertion keys are pairwise distinct and
exhaustive, every global id sits in exactly one replica row of
`molid_to_atomid` (their concatenation is exactly `0..Σ-1` in order), and
each id maps back to the `(type, localIndex)` of its block. -/
theorem c6_translation_bijection (molLens molsNumber : List Nat)
    (h : molLens.length = molsNumber.length) :
    ((buildTransAux (molLens.zip molsNumber) 0 0).1.map (fun p => p.1 + 1)) =
      List.range' 1 (totalAtoms (molLens.zip molsNumber)) ∧
    (buildTransAux (molLens.zip molsNumber) 0 0).2.flatten =
      List.range (totalAtoms (molLens.zip molsNumber)) ∧
    (buildTransAux (molLens.zip molsNumber) 0 0).2.length = molsNumber.sum ∧
    (∀ i, i < totalAtoms (molLens.zip molsNumber) →
      List.lookup i (buildTransAux (molLens.zip molsNumber) 0 0).1 =
        some (specTypeOf (molLens.zip molsNumber) i, specLocalOf (molLens.zip molsNumber) i)) := by
  have hkeys := buildTransAux_keys (molLens.zip molsNumber) 0 0
  refine ⟨?_, ?_, ?_, ?_⟩
  · have hcomp : ((buildTransAux (molLens.zip molsNumber) 0 0).1.map (fun p => p.1 + 1)) =
        ((buildTransAux (molLens.zip molsNumber) 0 0).1.map Prod.fst).map (fun x => 1 + x) := by
      rw [List.map_map]
      apply List.map_congr_left
      intro a _
      simp [Nat.add_comm]
    rw [hcomp, hkeys, List.map_add_range']
  · rw [buildTransAux_mols_join, ← List.range_eq_range']
  · rw [buildTransAux_mols_length]
    congr 1
    exact List.map_snd_zip molLens molsNumber (le_of_eq h.symm)
  · intro i hi
    have hnd : ((buildTransAux (molLens.zip molsNumber) 0 0).1.map Prod.fst).Nodup := by
      rw [hkeys]
      exact List.nodup_range' _ _
    have hmem := buildTransAux_mem (molLens.zip molsNumber) 0 0 i hi
    simp only [Nat.zero_add] at hmem
    exact lookup_of_mem_of_nodup _ _ _ hnd hmem

/-- Witness for C6 at two molecule types: type 0 with 2 atoms × 3
replicas, type 1 with 1 atom × 2 replicas (8 atoms total). -/
theorem c6_translation_bijection_witness :
    (([2, 1] : List Nat).length = ([3, 2] : List Nat).length) ∧
    (((buildTransAux (([2, 1] : List Nat).zip [3, 2]) 0 0).1.map (fun p => p.1 + 1)) =
      List.range' 1 (totalAtoms (([2, 1] : List Nat).zip [3, 2])) ∧
    (buildTransAux (([2, 1] : List Nat).zip [3, 2]) 0 0).2.flatten =
      List.range (totalAtoms (([2, 1] : List Nat).zip [3, 2])) ∧
    (buildTransAux (([2, 1] : List Nat).zip [3, 2]) 0 0).2.length = ([3, 2] : List Nat).sum ∧
    (∀ i, i < totalAtoms (([2, 1] : List Nat).zip [3, 2]) →
      List.lookup i (buildTransAux (([2, 1] : List Nat).zip [3, 2]) 0 0).1 =
        some (specTypeOf (([2, 1] : List Nat).zip [3, 2]) i,
              specLocalOf (([2, 1] : List Nat).zip [3, 2]) i))) :=
  ⟨rfl, c6_translation_bijection [2, 1] [3, 2] rfl⟩

/-- C3 counterexample: one molecule type with 2 atoms and 2 replicas.
Atom with 0-based global index 2 sits in the second replica: global
molecule id 2 (it is listed in `molid_to_atomid[1] = [2, 3]`).  Yet the
second field of its emitted record is 1 (the molecule-type index + 1),
not the global molecule id 2 — the claim fails as stated. -/
theorem c3_mol_field_counterexample :
    ((ffGetAtomsData [2] [2]
        [⟨"C", Val.vfloat "0.0", Val.vfloat "0.0", Val.vfloat "0.0"⟩,
         ⟨"C", Val.vfloat "0.0", Val.vfloat "0.0", Val.vfloat "0.0"⟩,
         ⟨"C", Val.vfloat "0.0", Val.vfloat "0.0", Val.vfloat "0.0"⟩,
         ⟨"C", Val.vfloat "0.0", Val.vfloat "0.0", Val.vfloat "0.0"⟩]
        [("C", (1, Val.vfloat "12.0"))] [⟨none⟩]).1.get? 2).map (fun row => row.get? 1) =
      some (some (Val.vint 1)) ∧
    (ffGetAtomsData [2] [2]
        [⟨"C", Val.vfloat "0.0", Val.vfloat "0.0", Val.vfloat "0.0"⟩,
         ⟨"C", Val.vfloat "0.0", Val.vfloat "0.0", Val.vfloat "0.0"⟩,
         ⟨"C", Val.vfloat "0.0", Val.vfloat "0.0", Val.vfloat "0.0"⟩,
         ⟨"C", Val.vfloat "0.0", Val.vfloat "0.0", Val.vfloat "0.0"⟩]
        [("C", (1, Val.vfloat "12.0"))] [⟨none⟩]).2.get? 1 = some [2, 3] ∧
    Val.vint 1 ≠ Val.vint 2 := by
  decide

/-- C3 amended: in assembled mode the second field of the record for
global atom `i` is the owning molecule-type index + 1 (not the global
molecule id), and `atom_to_mol` records, for each global atom id, the
`(moleculeType, localAtomIndex)` it came from. -/
theorem c3_mol_field (molLens molsNumber : List Nat) (molecule : List Site)
    (amd : List (String × (Nat × Val))) (tops : List Topology)
    (i : Nat) (hi : i < molecule.length)
    (hlen : molecule.length = totalAtoms (molLens.zip molsNumber)) :
    ∃ row, (ffGetAtomsData molLens molsNumber molecule amd tops).1.get? i = some row ∧
      row.get? 1 = some (Val.vint (specTypeOf (molLens.zip molsNumber) i + 1 : Nat)) ∧
      (i, (specTypeOf (molLens.zip molsNumber) i, specLocalOf (molLens.zip molsNumber) i)) ∈
        (buildTransAux (molLens.zip molsNumber) 0 0).1 := by
  have hitot : i < totalAtoms (molLens.zip molsNumber) := hlen ▸ hi
  have hkeys := buildTransAux_keys (molLens.zip molsNumber) 0 0
  have hnd : ((buildTransAux (molLens.zip molsNumber) 0 0).1.map Prod.fst).Nodup := by
    rw [hkeys]
    exact List.nodup_range' _ _
  have hmem := buildTransAux_mem (molLens.zip molsNumber) 0 0 i hitot
  simp only [Nat.zero_add] at hmem
  have hlook := lookup_of_mem_of_nodup _ _ _ hnd hmem
  refine ⟨ffAtomRow (buildTransAux (molLens.zip molsNumber) 0 0).1 amd tops
      (i, molecule.get ⟨i, hi⟩), ?_, ?_, hmem⟩
  · simp only [ffGetAtomsData]
    rw [List.get?_map, List.enum_get?, List.get?_eq_get hi]
    rfl
  · simp only [ffAtomRow, hlook, Option.getD_some, List.get?]

/-- Witness for C3 at the concrete input of the counterexample, atom 0. -/
theorem c3_mol_field_witness :
    ∃ row, (ffGetAtomsData [2] [2]
        [⟨"C", Val.vfloat "0.0", Val.vfloat "0.0", Val.vfloat "0.0"⟩,
         ⟨"C", Val.vfloat "0.0", Val.vfloat "0.0", Val.vfloat "0.0"⟩,
         ⟨"C", Val.vfloat "0.0", Val.vfloat "0.0", Val.vfloat "0.0"⟩,
         ⟨"C", Val.vfloat "0.0", Val.vfloat "0.0", Val.vfloat "0.0"⟩]
        [("C", (1, Val.vfloat "12.0"))] [⟨none⟩]).1.get? 3 = some row ∧
      row.get? 1 = some (Val.vint (specTypeOf (([2] : List Nat).zip [2]) 3 + 1 : Nat)) ∧
      (3, (specTypeOf (([2] : List Nat).zip [2]) 3, specLocalOf (([2] : List Nat).zip [2]) 3)) ∈
        (buildTransAux (([2] : List Nat).zip [2]) 0 0).1 :=
  c3_mol_field [2] [2] _ [("C", (1, Val.vfloat "12.0"))] [⟨none⟩] 3 (by decide) (by decide)

/-! ## `LammpsForceFieldData.get_param_data` (lines 449-523) -/

/-- ASCII lowering of one character, as `str.lower()` acts on the ASCII
text handled here. -/
def asciiLower (c : Char) : Char :=
  if 65 ≤ c.toNat ∧ c.toNat ≤ 90 then Char.ofNat (c.toNat + 32) else c

/-- `line.lower()` restricted to one token. -/
def lowerTok (s : String) : List Char := s.data.map asciiLower

/-- `w1 ++ " " ++ w2 in line.lower()` at the token level: the substring
contains one space, so it matches exactly when some token ends with `w1`
(lowered) and the next token starts with `w2` (lowered); `w1`/`w2` are
given already lowercase. -/
def hasHdr : List String → String → String → Bool
  | [], _, _ => false
  | [_], _, _ => false
  | a :: b :: rest, w1, w2 =>
      (w1.data.isSuffixOf (lowerTok a) && w2.data.isPrefixOf (lowerTok b)) ||
        hasHdr (b :: rest) w1 w2

/-- A token made only of ASCII letters (`[a-zA-Z]+`). -/
def isAlphaTok (s : String) : Bool :=
  !s.data.isEmpty && s.data.all Char.isAlpha

/-- `types_pattern` (line 606): `^\s*(\d+)\s+([a-zA-Z]+)\s+types$`. -/
def typesGroups : List String → Option (String × String)
  | [a, b, c] => if isDigitsTok a && isAlphaTok b && c == "types" then some (a, b) else none
  | _ => none

/-- `masses_pattern` (line 611): `^\s*(\d+)\s+([0-9.]+)$`. -/
def massesGroups : List String → Option (String × String)
  | [a, b] => if isDigitsTok a && isMassTok b then some (a, b) else none
  | _ => none

/-- `box_pattern` (line 612): two numeric groups then `[xyz]lo`, then a
token starting with `[xyz]hi` (the pattern is not anchored at the end). -/
def boxGroups : List String → Option (String × String)
  | a :: b :: c :: d :: _ =>
      if isNumTok a && isNumTok b && (c == "xlo" || c == "ylo" || c == "zlo") &&
        (("xhi".data.isPrefixOf d.data) || ("yhi".data.isPrefixOf d.data) ||
         ("zhi".data.isPrefixOf d.data))
      then some (a, b) else none
  | _ => none

/-- `atoms_pattern` (line 608): three `\d+` groups, three full numeric
groups, then a numeric run at the start of the seventh token (the pattern
ends with `\w*` and is not anchored, so later tokens are unconstrained). -/
def atomsGroups : List String → Option (String × String × String × String × String × String × String)
  | t1 :: t2 :: t3 :: t4 :: t5 :: t6 :: t7 :: _ =>
      let run := t7.data.takeWhile numChar
      if isDigitsTok t1 && isDigitsTok t2 && isDigitsTok t3 &&
        isNumTok t4 && isNumTok t5 && isNumTok t6 && !run.isEmpty
      then some (t1, t2, t3, t4, t5, t6, ⟨run⟩) else none
  | _ => none

/-- `general_coeff_pattern` (line 615): `^\s*(\d+)\s+([0-9.]+)\s+([0-9.]+)$`. -/
def generalCoeffGroups : List String → Option (String × String × String)
  | [a, b, c] => if isDigitsTok a && isMassTok b && isMassTok c then some (a, b, c) else none
  | _ => none

/-- `bond_data_pattern` (line 617): exactly four integer tokens. -/
def bondDataGroups : List String → Option (String × String × String × String)
  | [a, b, c, d] =>
      if isDigitsTok a && isDigitsTok b && isDigitsTok c && isDigitsTok d
      then some (a, b, c, d) else none
  | _ => none

/-- `angle_data_pattern` (line 619): exactly five integer tokens. -/
def angleDataGroups : List String → Option (String × String × String × String × String)
  | [a, b, c, d, e] =>
      if isDigitsTok a && isDigitsTok b && isDigitsTok c && isDigitsTok d && isDigitsTok e
      then some (a, b, c, d, e) else none
  | _ => none

/-- `dihedral_data_pattern` (line 622): exactly six integer tokens. -/
def dihedralDataGroups : List String → Option (String × String × String × String × String × String)
  | [a, b, c, d, e, f] =>
      if isDigitsTok a && isDigitsTok b && isDigitsTok c && isDigitsTok d &&
        isDigitsTok e && isDigitsTok f
      then some (a, b, c, d, e, f) else none
  | _ => none

/-- The mutable locals of one `from_file` invocation.  The `n*_types`
counters are `Option`-valued: `none` models a Python local that is still
unbound (reading it raises `NameError`). -/
structure FFState where
  natomTypes : Option Nat := none
  npairTypes : Option Nat := none
  nbondTypes : Option Nat := none
  nangleTypes : Option Nat := none
  ndihedralTypes : Option Nat := none
  nimproperTypes : Option Nat := none
  atomicMasses : List Row := []
  boxSize : List (Val × Val) := []
  pairCoeffs : List Row := []
  bondCoeffs : List Row := []
  angleCoeffs : List Row := []
  dihedralCoeffs : List Row := []
  improperCoeffs : List Row := []
  atomsData : List Row := []
  bondsData : List Row := []
  anglesData : List Row := []
  dihedralData : List Row := []
  readPair : Bool := false
  readBond : Bool := false
  readAngle : Bool := false
  readDihedral : Bool := false
  readImproper : Bool := false
  deriving Repr, DecidableEq

/-- Lines 631-643: the `types_pattern` branch with its five inner `if`s
(`npair_types` is set together with `natom_types`). -/
def typesStep (st : FFState) (l : List String) : FFState :=
  match typesGroups l with
  | none => st
  | some (g1, g2) =>
      let n := parseNatTok g1
      let st := if g2 == "atom" then { st with natomTypes := some n, npairTypes := some n } else st
      let st := if g2 == "bond" then { st with nbondTypes := some n } else st
      let st := if g2 == "angle" then { st with nangleTypes := some n } else st
      let st := if g2 == "dihedral" then { st with ndihedralTypes := some n } else st
      if g2 == "improper" then { st with nimproperTypes := some n } else st

/-- Lines 644-646: the unconditional mass-row branch. -/
def massesStep (st : FFState) (l : List String) : Except String FFState :=
  match massesGroups l with
  | none => Except.ok st
  | some (g1, g2) =>
      match pyFloatOf g2 with
      | none => Except.error "ValueError"
      | some f => Except.ok { st with atomicMasses :=
          st.atomicMasses ++ [[Val.vint (parseNatTok g1 : Nat), Val.vfloat f]] }

/-- Lines 647-649: the unconditional box-bounds branch. -/
def boxStep (st : FFState) (l : List String) : Except String FFState :=
  match boxGroups l with
  | none => Except.ok st
  | some (g1, g2) =>
      match pyFloatOf g1, pyFloatOf g2 with
      | some f1, some f2 =>
          Except.ok { st with boxSize := st.boxSize ++ [(Val.vfloat f1, Val.vfloat f2)] }
      | _, _ => Except.error "ValueError"

/-- `[float(i) for i in tokens]`: left-to-right, failing at the first
malformed numeral. -/
def pyFloatList : List String → Option (List String)
  | [] => some []
  | t :: ts =>
      match pyFloatOf t with
      | none => none
      | some f =>
          match pyFloatList ts with
          | none => none
          | some fs => some (f :: fs)

/-- `[int(tokens[0])] + [float(i) for i in tokens[1:]]` on a non-blank
token list. -/
def readTokensRow : List String → Option Row
  | [] => none
  | t0 :: restT =>
      match pyIntOf t0 with
      | none => none
      | some i =>
          match pyFloatList restT with
          | none => none
          | some fs => some (Val.vint i :: fs.map Val.vfloat)

/-- Lines 653-657: the active pair-coefficient branch (token-based). -/
def pairStep (st : FFState) (l : List String) : Except String FFState :=
  if st.readPair then
    match l with
    | [] => Except.ok st
    | t0 :: restT =>
        match readTokensRow (t0 :: restT) with
        | none => Except.error "ValueError"
        | some row =>
            let pc := st.pairCoeffs ++ [row]
            match st.npairTypes with
            | none => Except.error "NameError"
            | some n =>
                Except.ok { st with pairCoeffs := pc, readPair := if pc.length ≥ n then false else true }
  else Except.ok st

/-- Lines 661-666: the active bond-coefficient branch (pattern-based). -/
def bondCoeffStep (st : FFState) (l : List String) : Except String FFState :=
  if st.readBond then
    match generalCoeffGroups l with
    | none => Except.ok st
    | some (g1, g2, g3) =>
        match pyFloatOf g2, pyFloatOf g3 with
        | some f2, some f3 =>
            let bc := st.bondCoeffs ++
              [[Val.vint (parseNatTok g1 : Nat), Val.vfloat f2, Val.vfloat f3]]
            match st.nbondTypes with
            | none => Except.error "NameError"
            | some n =>
                Except.ok { st with bondCoeffs := bc, readBond := if bc.length ≥ n then false else true }
        | _, _ => Except.error "ValueError"
  else Except.ok st

/-- Lines 670-675: the active angle-coefficient branch (pattern-based). -/
def angleCoeffStep (st : FFState) (l : List String) : Except String FFState :=
  if st.readAngle then
    match generalCoeffGroups l with
    | none => Except.ok st
    | some (g1, g2, g3) =>
        match pyFloatOf g2, pyFloatOf g3 with
        | some f2, some f3 =>
            let ac := st.angleCoeffs ++
              [[Val.vint (parseNatTok g1 : Nat), Val.vfloat f2, Val.vfloat f3]]
            match st.nangleTypes with
            | none => Except.error "NameError"
            | some n =>
                Except.ok { st with angleCoeffs := ac, readAngle := if ac.length ≥ n then false else true }
        | _, _ => Except.error "ValueError"
  else Except.ok st

/-- Lines 679-684: the active dihedral-coefficient branch (token-based). -/
def dihedralCoeffStep (st : FFState) (l : List String) : Except String FFState :=
  if st.readDihedral then
    match l with
    | [] => Except.ok st
    | t0 :: restT =>
        match readTokensRow (t0 :: restT) with
        | none => Except.error "ValueError"
        | some row =>
            let dc := st.dihedralCoeffs ++ [row]
            match st.ndihedralTypes with
            | none => Except.error "NameError"
            | some n =>
                Except.ok { st with dihedralCoeffs := dc, readDihedral := if dc.length ≥ n then false else true }
  else Except.ok st

/-- Lines 688-693: the active improper-coefficient branch (token-based). -/
def improperCoeffStep (st : FFState) (l : List String) : Except String FFState :=
  if st.readImproper then
    match l with
    | [] => Except.ok st
    | t0 :: restT =>
        match readTokensRow (t0 :: restT) with
        | none => Except.error "ValueError"
        | some row =>
            let ic := st.improperCoeffs ++ [row]
            match st.nimproperTypes with
            | none => Except.error "NameError"
            | some n =>
                Except.ok { st with improperCoeffs := ic, readImproper := if ic.length ≥ n then false else true }
  else Except.ok st

/-- Lines 694-700: the atom-row branch. -/
def atomsStep (st : FFState) (l : List String) : Except String FFState :=
  match atomsGroups l with
  | none => Except.ok st
  | some (g1, g2, g3, g4, g5, g6, g7) =>
      match pyFloatOf g4, pyFloatOf g5, pyFloatOf g6, pyFloatOf g7 with
      | some f4, some f5, some f6, some f7 =>
          Except.ok { st with atomsData := st.atomsData ++
            [[Val.vint (parseNatTok g1 : Nat), Val.vint (parseNatTok g2 : Nat),
              Val.vint (parseNatTok g3 : Nat), Val.vfloat f4, Val.vfloat f5,
              Val.vfloat f6, Val.vfloat f7]] }
      | _, _, _, _ => Except.error "ValueError"

/-- Lines 701-703: bond rows, only once atom rows exist. -/
def bondDataStep (st : FFState) (l : List String) : FFState :=
  match bondDataGroups l with
  | some (a, b, c, d) =>
      if st.atomsData.isEmpty then st
      else { st with bondsData := st.bondsData ++
        [[Val.vint (parseNatTok a : Nat), Val.vint (parseNatTok b : Nat),
          Val.vint (parseNatTok c : Nat), Val.vint (parseNatTok d : Nat)]] }
  | none => st

/-- Lines 704-706: angle rows, only once atom rows exist. -/
def angleDataStep (st : FFState) (l : List String) : FFState :=
  match angleDataGroups l with
  | some (a, b, c, d, e) =>
      if st.atomsData.isEmpty then st
      else { st with anglesData := st.anglesData ++
        [[Val.vint (parseNatTok a : Nat), Val.vint (parseNatTok b : Nat),
          Val.vint (parseNatTok c : Nat), Val.vint (parseNatTok d : Nat),
          Val.vint (parseNatTok e : Nat)]] }
  | none => st

/-- Lines 707-709: dihedral rows, only once atom rows exist. -/
def dihedralDataStep (st : FFState) (l : List String) : FFState :=
  match dihedralDataGroups l with
  | some (a, b, c, d, e, f) =>
      if st.atomsData.isEmpty then st
      else { st with dihedralData := st.dihedralData ++
        [[Val.vint (parseNatTok a : Nat), Val.vint (parseNatTok b : Nat),
          Val.vint (parseNatTok c : Nat), Val.vint (parseNatTok d : Nat),
          Val.vint (parseNatTok e : Nat), Val.vint (parseNatTok f : Nat)]] }
  | none => st

/-- One iteration of the `for line in df` loop of
`LammpsForceFieldData.from_file`, with its exact branch order and the five
`continue`s after the section-header matches. -/
def step (st : FFState) (l : List String) : Except String FFState :=
  let st := typesStep st l
  match massesStep st l with
  | Except.error e => Except.error e
  | Except.ok st =>
  match boxStep st l with
  | Except.error e => Except.error e
  | Except.ok st =>
  if hasHdr l "pair" "coeffs" then Except.ok { st with readPair := true } else
  match pairStep st l with
  | Except.error e => Except.error e
  | Except.ok st =>
  if hasHdr l "bond" "coeffs" then Except.ok { st with readBond := true } else
  match bondCoeffStep st l with
  | Except.error e => Except.error e
  | Except.ok st =>
  if hasHdr l "angle" "coeffs" then Except.ok { st with readAngle := true } else
  match angleCoeffStep st l with
  | Except.error e => Except.error e
  | Except.ok st =>
  if hasHdr l "dihedral" "coeffs" then Except.ok { st with readDihedral := true } else
  match dihedralCoeffStep st l with
  | Except.error e => Except.error e
  | Except.ok st =>
  if hasHdr l "improper" "coeffs" then Except.ok { st with readImproper := true } else
  match improperCoeffStep st l with
  | Except.error e => Except.error e
  | Except.ok st =>
  match atomsStep st l with
  | Except.error e => Except.error e
  | Except.ok st =>
  Except.ok (dihedralDataStep (angleDataStep (bondDataStep st l) l) l)

/-- The whole line loop. -/
def runLines (st : FFState) : List (List String) → Except String FFState
  | [] => Except.ok st
  | l :: ls =>
      match step st l with
      | Except.error e => Except.error e
      | Except.ok st2 => runLines st2 ls

/-- `LammpsForceFieldData.from_file` on the token lines of the input text:
run the line loop from the all-empty initial state, then build the record
(`imdihedral_data` is never filled and is passed as `[]`, line 605/714). -/
def ffFromLines (lines : List (List String)) : Except String FFDataRec :=
  match runLines {} lines with
  | Except.error e => Except.error e
  | Except.ok st =>
      Except.ok (mkFFData st.boxSize st.atomicMasses st.pairCoeffs st.bondCoeffs
        st.angleCoeffs st.dihedralCoeffs st.improperCoeffs st.atomsData
        st.bondsData st.anglesData st.dihedralData [])

/-- `set_lines_from_list` (lines 154-169): an empty list is suppressed; a
non-empty one contributes the element `"\n" + name + " \n"` (three
physical lines: blank, header, blank) and one line per record. -/
def setLines (name : List String) (rows : List Row) : List (List String) :=
  if rows.isEmpty then [] else [[], name, []] ++ rows.map renderRow

/-- The `i`-th axis bounds of the record's box, rendered. -/
def boxTok (d : FFDataRec) (i : Nat) : String × String :=
  ((d.boxSize.getD i (Val.vint 0, Val.vint 0)).1.render,
   (d.boxSize.getD i (Val.vint 0, Val.vint 0)).2.render)

/-- `LammpsForceFieldData.__str__` (lines 315-369), as the list of
physical token lines of `"\n".join(lines)`: title; count lines (dihedral
and improper count lines only when the respective record count is
positive); type-count lines (same gating, on the record counts `ndih` /
`nimdihs`); the three box lines; then the sections in fixed order, the
dihedral/improper coefficient and data sections gated on `ndih` /
`nimdihs` as in the source. -/
def ffLines (d : FFDataRec) : List (List String) :=
  [["Data", "file", "generated", "by", "pymatgen"], []]
  ++ [[natToTok d.natoms, "atoms"], [natToTok d.nbonds, "bonds"], [natToTok d.nangles, "angles"]]
  ++ (if 0 < d.ndih then [[natToTok d.ndih, "dihedrals"]] else [])
  ++ (if 0 < d.nimdihs then [[natToTok d.nimdihs, "impropers"]] else [])
  ++ [[], [natToTok d.natomTypes, "atom", "types"], [natToTok d.nbondTypes, "bond", "types"],
      [natToTok d.nangleTypes, "angle", "types"]]
  ++ (if 0 < d.ndih then [[natToTok d.ndihTypes, "dihedral", "types"]] else [])
  ++ (if 0 < d.nimdihs then [[natToTok d.nimdihTypes, "improper", "types"]] else [])
  ++ [[], [(boxTok d 0).1, (boxTok d 0).2, "xlo", "xhi"],
      [(boxTok d 1).1, (boxTok d 1).2, "ylo", "yhi"],
      [(boxTok d 2).1, (boxTok d 2).2, "zlo", "zhi"]]
  ++ setLines ["Masses"] d.atomicMasses
  ++ setLines ["Pair", "Coeffs"] d.pairCoeffs
  ++ setLines ["Bond", "Coeffs"] d.bondCoeffs
  ++ setLines ["Angle", "Coeffs"] d.angleCoeffs
  ++ (if 0 < d.ndih then setLines ["Dihedral", "Coeffs"] d.dihedralCoeffs else [])
  ++ (if 0 < d.nimdihs then setLines ["Improper", "Coeffs"] d.improperCoeffs else [])
  ++ setLines ["Atoms"] d.atomsData
  ++ setLines ["Bonds"] d.bondsData
  ++ setLines ["Angles"] d.anglesData
  ++ (if 0 < d.ndih then setLines ["Dihedrals"] d.dihedralsData else [])
  ++ (if 0 < d.nimdihs then setLines ["Impropers"] d.imdihedralsData else [])

/-! ## Token-class lemmas used to drive the parser through writer output -/

theorem charOfNat_toNat (n : Nat) (h : n < 55296) : (Char.ofNat n).toNat = n := by
  have hv : n.isValidChar := Or.inl h
  simp [Char.ofNat, hv, Char.toNat, Char.ofNatAux, UInt32.toNat]

theorem asciiLower_ne_c (c : Char) (h : numChar c = true) : asciiLower c ≠ 'c' := by
  by_cases hd : c.isDigit = true
  · have h2 : c.toNat ≤ 57 := by
      have hd2 := hd
      simp [Char.isDigit, Char.le_def] at hd2
      exact hd2.2
    have he : asciiLower c = c := by
      unfold asciiLower
      rw [if_neg]
      omega
    rw [he]
    intro hc
    subst hc
    exact absurd hd (by decide)
  · have hcase : c = 'e' ∨ c = 'E' ∨ c = '.' ∨ c = '+' ∨ c = '-' := by
      simp only [numChar, Bool.or_eq_true, beq_iff_eq] at h
      tauto
    rcases hcase with rfl | rfl | rfl | rfl | rfl <;> decide

theorem lowerTok_not_coeffs (s : String) (h : isNumTok s = true) :
    ("coeffs".data.isPrefixOf (lowerTok s)) = false := by
  cases hs : s.data with
  | nil =>
    simp only [lowerTok, hs, List.map_nil]
    decide
  | cons c rest =>
    have hc : numChar c = true := by
      simp only [isNumTok, hs, Bool.and_eq_true, List.all_cons] at h
      exact h.2.1
    have hne : ('c' == asciiLower c) = false := by
      simp [Ne.symm (asciiLower_ne_c c hc)]
    simp only [lowerTok, hs, List.map_cons]
    show (('c' :: "oeffs".data).isPrefixOf (asciiLower c :: rest.map asciiLower)) = false
    simp [List.isPrefixOf, hne]

/-- For a header word pair with second word `"coeffs"`, a line none of
whose tokens starts (lowered) with a `c` never matches. -/
theorem hasHdr_coeffs_false : ∀ (l : List String) (w1 : String),
    (∀ b ∈ l, ("coeffs".data.isPrefixOf (lowerTok b)) = false) →
    hasHdr l w1 "coeffs" = false := by
  intro l
  induction l with
  | nil => intro w1 _; rfl
  | cons a tl ih =>
    intro w1 hall
    cases tl with
    | nil => rfl
    | cons b rest =>
      show ((w1.data.isSuffixOf (lowerTok a) && ("coeffs".data.isPrefixOf (lowerTok b))) ||
        hasHdr (b :: rest) w1 "coeffs") = false
      rw [hall b (by simp), ih w1 (fun x hx => hall x (by simp [hx]))]
      simp

theorem isMassTok_isNumTok (s : String) (h : isMassTok s = true) : isNumTok s = true := by
  simp only [isMassTok, Bool.and_eq_true, List.all_eq_true] at h
  simp only [isNumTok, Bool.and_eq_true, List.all_eq_true]
  refine ⟨h.1, fun c hc => ?_⟩
  have := h.2 c hc
  simp only [massChar, Bool.or_eq_true] at this
  simp only [numChar, Bool.or_eq_true]
  tauto

theorem isDigitsTok_isNumTok (s : String) (h : isDigitsTok s = true) : isNumTok s = true := by
  simp only [isDigitsTok, Bool.and_eq_true, List.all_eq_true] at h
  simp only [isNumTok, Bool.and_eq_true, List.all_eq_true]
  refine ⟨h.1, fun c hc => ?_⟩
  have := h.2 c hc
  simp only [numChar, Bool.or_eq_true]
  tauto

theorem natToTok_isNumTok (n : Nat) : isNumTok (natToTok n) = true :=
  isDigitsTok_isNumTok _ (natToTok_digits n)

theorem isNumTok_ne (s w : String) (h : isNumTok s = true) (hw : isNumTok w = false) : s ≠ w := by
  intro heq
  subst heq
  rw [h] at hw
  simp at hw

theorem isNumTok_beq_false (s w : String) (h : isNumTok s = true) (hw : isNumTok w = false) :
    (s == w) = false := by
  have := isNumTok_ne s w h hw
  simp [this]

theorem isDigitsTok_beq_false (s w : String) (h : isDigitsTok s = true)
    (hw : isDigitsTok w = false) : (s == w) = false := by
  have : s ≠ w := by
    intro heq
    subst heq
    rw [h] at hw
    simp at hw
  simp [this]

theorem dotted_not_digits (s : String) (h : s.data.contains '.' = true) :
    isDigitsTok s = false := by
  by_contra hcon
  have hd : isDigitsTok s = true := by
    cases hds : isDigitsTok s
    · exact absurd hds hcon
    · rfl
  simp only [isDigitsTok, Bool.and_eq_true, List.all_eq_true] at hd
  have hmem : '.' ∈ s.data := by simpa using h
  exact absurd (hd.2 '.' hmem) (by decide)

theorem takeWhile_all_eq {α : Type} (p : α → Bool) : ∀ (l : List α), l.all p = true →
    l.takeWhile p = l := by
  intro l
  induction l with
  | nil => intro _; rfl
  | cons a t ih =>
    intro h
    simp only [List.all_cons, Bool.and_eq_true] at h
    simp [List.takeWhile_cons, h.1, ih h.2]

theorem dropWhile_all_eq {α : Type} (p : α → Bool) : ∀ (l : List α), l.all p = true →
    l.dropWhile p = [] := by
  intro l
  induction l with
  | nil => intro _; rfl
  | cons a t ih =>
    intro h
    simp only [List.all_cons, Bool.and_eq_true] at h
    simp [List.dropWhile_cons, h.1, ih h.2]

theorem digit_beq_false (c : Char) (w : Char) (hd : c.isDigit = true)
    (hw : w.isDigit = false) : (c == w) = false := by
  have : c ≠ w := by
    intro heq
    subst heq
    rw [hd] at hw
    simp at hw
  simp [this]

theorem validFloat_digits (s : String) (h : isDigitsTok s = true) : validFloat s = true := by
  simp only [isDigitsTok, Bool.and_eq_true, List.all_eq_true, Bool.not_eq_true'] at h
  obtain ⟨hne, hall⟩ := h
  cases hs : s.data with
  | nil => rw [hs] at hne; simp at hne
  | cons c rest =>
    have hc : c.isDigit = true := hall c (by rw [hs]; simp)
    have hrest : rest.all Char.isDigit = true := by
      simp only [List.all_eq_true]
      intro x hx
      exact hall x (by rw [hs]; simp [hx])
    have hsign : (c == '+' || c == '-') = false := by
      rw [digit_beq_false c '+' hc (by decide), digit_beq_false c '-' hc (by decide)]
      rfl
    have hallc : (c :: rest).all Char.isDigit = true := by simp [hc, hrest]
    have hstrip : stripSign (c :: rest) = c :: rest := by
      rw [show stripSign (c :: rest) =
        if (c == '+' || c == '-') = true then rest else c :: rest from rfl, hsign]
      simp
    unfold validFloat
    rw [hs]
    simp only [validFloatChars, hstrip]
    rw [takeWhile_all_eq _ _ hallc, dropWhile_all_eq _ _ hallc]
    simp [expPart]

theorem pyFloatOf_valid (s : String) (h : validFloat s = true) : pyFloatOf s = some s := by
  simp [pyFloatOf, h]

theorem pyFloatList_all : ∀ (ts : List String), (∀ t ∈ ts, validFloat t = true) →
    pyFloatList ts = some ts := by
  intro ts
  induction ts with
  | nil => intro _; rfl
  | cons t tl ih =>
    intro h
    have h1 := pyFloatOf_valid t (h t (by simp))
    have h2 := ih (fun x hx => h x (by simp [hx]))
    simp only [pyFloatList, h1, h2]

theorem pyIntOf_digits (s : String) (h : isDigitsTok s = true) :
    pyIntOf s = some (parseNatTok s : Int) := by
  simp only [isDigitsTok, Bool.and_eq_true, List.all_eq_true, Bool.not_eq_true'] at h
  obtain ⟨hne, hall⟩ := h
  cases hs : s.data with
  | nil => rw [hs] at hne; simp at hne
  | cons c rest =>
    have hc : c.isDigit = true := hall c (by rw [hs]; simp)
    have hallc : (c :: rest).all Char.isDigit = true := by
      simp only [List.all_eq_true]
      intro x hx
      exact hall x (by rw [hs]; exact hx)
    unfold pyIntOf
    rw [hs]
    simp only [pyIntChars, digit_beq_false c '-' hc (by decide),
      digit_beq_false c '+' hc (by decide), hallc]
    simp [parseNatTok, hs]

theorem pyIntOf_natToTok (n : Nat) : pyIntOf (natToTok n) = some (n : Int) := by
  rw [pyIntOf_digits _ (natToTok_digits n), parseNatTok_natToTok]

theorem intToTok_natCast (n : Nat) : intToTok (n : Int) = natToTok n := by
  simp [intToTok]

theorem strMk_data (s : String) : String.mk s.data = s := rfl

/-! Group-matcher vanishing lemmas, used to show that writer data rows do
not trip the other patterns. -/

theorem typesGroups_none_numeric (l : List String) (h : l.all isNumTok = true) :
    typesGroups l = none := by
  match l with
  | [] => rfl
  | [a] => rfl
  | [a, b] => rfl
  | [a, b, c] =>
      have hc : isNumTok c = true := by
        simp only [List.all_eq_true] at h
        exact h c (by simp)
      have hb : (c == "types") = false := isNumTok_beq_false c "types" hc (by decide)
      simp [typesGroups, hb]
  | a :: b :: c :: d :: rest => rfl

theorem massesGroups_none_len (l : List String) (h : l.length ≠ 2) :
    massesGroups l = none := by
  match l with
  | [] => rfl
  | [a] => rfl
  | [a, b] => exact absurd rfl h
  | a :: b :: c :: rest => rfl

theorem boxGroups_none_numeric (l : List String) (h : l.all isNumTok = true) :
    boxGroups l = none := by
  match l with
  | [] => rfl
  | [a] => rfl
  | [a, b] => rfl
  | [a, b, c] => rfl
  | a :: b :: c :: d :: rest =>
      have hc : isNumTok c = true := by
        simp only [List.all_eq_true] at h
        exact h c (by simp)
      have h1 : (c == "xlo") = false := isNumTok_beq_false c "xlo" hc (by decide)
      have h2 : (c == "ylo") = false := isNumTok_beq_false c "ylo" hc (by decide)
      have h3 : (c == "zlo") = false := isNumTok_beq_false c "zlo" hc (by decide)
      simp [boxGroups, h1, h2, h3]

theorem atomsGroups_none_snd (l : List String)
    (h : ∀ s, l.get? 1 = some s → isDigitsTok s = false) : atomsGroups l = none := by
  match l with
  | [] => rfl
  | [_] => rfl
  | [_, _] => rfl
  | [_, _, _] => rfl
  | [_, _, _, _] => rfl
  | [_, _, _, _, _] => rfl
  | [_, _, _, _, _, _] => rfl
  | t1 :: t2 :: t3 :: t4 :: t5 :: t6 :: t7 :: rest =>
      have := h t2 rfl
      simp [atomsGroups, this]

theorem bondDataGroups_none_snd (l : List String)
    (h : ∀ s, l.get? 1 = some s → isDigitsTok s = false) : bondDataGroups l = none := by
  match l with
  | [] => rfl
  | [_] => rfl
  | [_, _] => rfl
  | [_, _, _] => rfl
  | [a, b, c, d] =>
      have := h b rfl
      simp [bondDataGroups, this]
  | a :: b :: c :: d :: e :: rest => rfl

theorem angleDataGroups_none_snd (l : List String)
    (h : ∀ s, l.get? 1 = some s → isDigitsTok s = false) : angleDataGroups l = none := by
  match l with
  | [] => rfl
  | [_] => rfl
  | [_, _] => rfl
  | [_, _, _] => rfl
  | [_, _, _, _] => rfl
  | [a, b, c, d, e] =>
      have := h b rfl
      simp [angleDataGroups, this]
  | a :: b :: c :: d :: e :: f :: rest => rfl

theorem dihedralDataGroups_none_snd (l : List String)
    (h : ∀ s, l.get? 1 = some s → isDigitsTok s = false) : dihedralDataGroups l = none := by
  match l with
  | [] => rfl
  | [_] => rfl
  | [_, _] => rfl
  | [_, _, _] => rfl
  | [_, _, _, _] => rfl
  | [_, _, _, _, _] => rfl
  | [a, b, c, d, e, f] =>
      have := h b rfl
      simp [dihedralDataGroups, this]
  | a :: b :: c :: d :: e :: f :: g :: rest => rfl

/-! Branch-vanishing lemmas for `step`. -/

theorem typesStep_none (st : FFState) (l : List String) (h : typesGroups l = none) :
    typesStep st l = st := by
  simp [typesStep, h]

theorem massesStep_none (st : FFState) (l : List String) (h : massesGroups l = none) :
    massesStep st l = Except.ok st := by
  simp [massesStep, h]

theorem boxStep_none (st : FFState) (l : List String) (h : boxGroups l = none) :
    boxStep st l = Except.ok st := by
  simp [boxStep, h]

theorem atomsStep_none (st : FFState) (l : List String) (h : atomsGroups l = none) :
    atomsStep st l = Except.ok st := by
  simp [atomsStep, h]

theorem pairStep_off (st : FFState) (l : List String) (h : st.readPair = false) :
    pairStep st l = Except.ok st := by
  simp [pairStep, h]

theorem pairStep_nil (st : FFState) : pairStep st [] = Except.ok st := by
  cases h : st.readPair <;> simp [pairStep, h]

theorem bondCoeffStep_off (st : FFState) (l : List String) (h : st.readBond = false) :
    bondCoeffStep st l = Except.ok st := by
  simp [bondCoeffStep, h]

theorem bondCoeffStep_none (st : FFState) (l : List String) (h : generalCoeffGroups l = none) :
    bondCoeffStep st l = Except.ok st := by
  cases hb : st.readBond <;> simp [bondCoeffStep, hb, h]

theorem angleCoeffStep_off (st : FFState) (l : List String) (h : st.readAngle = false) :
    angleCoeffStep st l = Except.ok st := by
  simp [angleCoeffStep, h]

theorem angleCoeffStep_none (st : FFState) (l : List String) (h : generalCoeffGroups l = none) :
    angleCoeffStep st l = Except.ok st := by
  cases ha : st.readAngle <;> simp [angleCoeffStep, ha, h]

theorem dihedralCoeffStep_off (st : FFState) (l : List String) (h : st.readDihedral = false) :
    dihedralCoeffStep st l = Except.ok st := by
  simp [dihedralCoeffStep, h]

theorem dihedralCoeffStep_nil (st : FFState) : dihedralCoeffStep st [] = Except.ok st := by
  cases h : st.readDihedral <;> simp [dihedralCoeffStep, h]

theorem improperCoeffStep_off (st : FFState) (l : List String) (h : st.readImproper = false) :
    improperCoeffStep st l = Except.ok st := by
  simp [improperCoeffStep, h]

theorem improperCoeffStep_nil (st : FFState) : improperCoeffStep st [] = Except.ok st := by
  cases h : st.readImproper <;> simp [improperCoeffStep, h]

theorem bondDataStep_none (st : FFState) (l : List String) (h : bondDataGroups l = none) :
    bondDataStep st l = st := by
  simp [bondDataStep, h]

theorem angleDataStep_none (st : FFState) (l : List String) (h : angleDataGroups l = none) :
    angleDataStep st l = st := by
  simp [angleDataStep, h]

theorem dihedralDataStep_none (st : FFState) (l : List String) (h : dihedralDataGroups l = none) :
    dihedralDataStep st l = st := by
  simp [dihedralDataStep, h]

/-- Composing `step` when no section-header substring matches. -/
theorem step_noheader (st st1 st2 st3 st4 st5 st6 st7 st8 st9 : FFState) (l : List String)
    (e1 : typesStep st l = st1)
    (e2 : massesStep st1 l = Except.ok st2)
    (e3 : boxStep st2 l = Except.ok st3)
    (h1 : hasHdr l "pair" "coeffs" = false)
    (e4 : pairStep st3 l = Except.ok st4)
    (h2 : hasHdr l "bond" "coeffs" = false)
    (e5 : bondCoeffStep st4 l = Except.ok st5)
    (h3 : hasHdr l "angle" "coeffs" = false)
    (e6 : angleCoeffStep st5 l = Except.ok st6)
    (h4 : hasHdr l "dihedral" "coeffs" = false)
    (e7 : dihedralCoeffStep st6 l = Except.ok st7)
    (h5 : hasHdr l "improper" "coeffs" = false)
    (e8 : improperCoeffStep st7 l = Except.ok st8)
    (e9 : atomsStep st8 l = Except.ok st9) :
    step st l = Except.ok (dihedralDataStep (angleDataStep (bondDataStep st9 l) l) l) := by
  simp only [step, e1, e2, e3, h1, e4, h2, e5, h3, e6, h4, e7, h5, e8, e9,
    Bool.false_eq_true, if_false]

theorem step_hdr_pair (st st1 st2 st3 : FFState) (l : List String)
    (e1 : typesStep st l = st1)
    (e2 : massesStep st1 l = Except.ok st2)
    (e3 : boxStep st2 l = Except.ok st3)
    (h : hasHdr l "pair" "coeffs" = true) :
    step st l = Except.ok { st3 with readPair := true } := by
  simp only [step, e1, e2, e3, h, if_true]


theorem step_hdr_bond (st st1 st2 st3 st4 : FFState) (l : List String)
    (e1 : typesStep st l = st1)
    (e2 : massesStep st1 l = Except.ok st2)
    (e3 : boxStep st2 l = Except.ok st3)
    (h1 : hasHdr l "pair" "coeffs" = false)
    (e4 : pairStep st3 l = Except.ok st4)
    (h : hasHdr l "bond" "coeffs" = true) :
    step st l = Except.ok { st4 with readBond := true } := by
  simp only [step, e1, e2, e3, h1, e4, h, Bool.false_eq_true, if_true, if_false]

theorem step_hdr_angle (st st1 st2 st3 st4 st5 : FFState) (l : List String)
    (e1 : typesStep st l = st1)
    (e2 : massesStep st1 l = Except.ok st2)
    (e3 : boxStep st2 l = Except.ok st3)
    (h1 : hasHdr l "pair" "coeffs" = false)
    (e4 : pairStep st3 l = Except.ok st4)
    (h2 : hasHdr l "bond" "coeffs" = false)
    (e5 : bondCoeffStep st4 l = Except.ok st5)
    (h : hasHdr l "angle" "coeffs" = true) :
    step st l = Except.ok { st5 with readAngle := true } := by
  simp only [step, e1, e2, e3, h1, e4, h2, e5, h, Bool.false_eq_true, if_true, if_false]

theorem step_hdr_dihedral (st st1 st2 st3 st4 st5 st6 : FFState) (l : List String)
    (e1 : typesStep st l = st1)
    (e2 : massesStep st1 l = Except.ok st2)
    (e3 : boxStep st2 l = Except.ok st3)
    (h1 : hasHdr l "pair" "coeffs" = false)
    (e4 : pairStep st3 l = Except.ok st4)
    (h2 : hasHdr l "bond" "coeffs" = false)
    (e5 : bondCoeffStep st4 l = Except.ok st5)
    (h3 : hasHdr l "angle" "coeffs" = false)
    (e6 : angleCoeffStep st5 l = Except.ok st6)
    (h : hasHdr l "dihedral" "coeffs" = true) :
    step st l = Except.ok { st6 with readDihedral := true } := by
  simp only [step, e1, e2, e3, h1, e4, h2, e5, h3, e6, h, Bool.false_eq_true, if_true, if_false]

theorem step_hdr_improper (st st1 st2 st3 st4 st5 st6 st7 : FFState) (l : List String)
    (e1 : typesStep st l = st1)
    (e2 : massesStep st1 l = Except.ok st2)
    (e3 : boxStep st2 l = Except.ok st3)
    (h1 : hasHdr l "pair" "coeffs" = false)
    (e4 : pairStep st3 l = Except.ok st4)
    (h2 : hasHdr l "bond" "coeffs" = false)
    (e5 : bondCoeffStep st4 l = Except.ok st5)
    (h3 : hasHdr l "angle" "coeffs" = false)
    (e6 : angleCoeffStep st5 l = Except.ok st6)
    (h4 : hasHdr l "dihedral" "coeffs" = false)
    (e7 : dihedralCoeffStep st6 l = Except.ok st7)
    (h : hasHdr l "improper" "coeffs" = true) :
    step st l = Except.ok { st7 with readImproper := true } := by
  simp only [step, e1, e2, e3, h1, e4, h2, e5, h3, e6, h4, e7, h, Bool.false_eq_true, if_true, if_false]

/-! Per-line behaviour of `step` on the shapes the writer emits. -/

theorem hdr_false_numeric (l : List String) (h : l.all isNumTok = true) (w1 : String) :
    hasHdr l w1 "coeffs" = false := by
  apply hasHdr_coeffs_false
  intro b hb
  apply lowerTok_not_coeffs
  simp only [List.all_eq_true] at h
  exact h b hb

theorem step_blank (st : FFState) : step st [] = Except.ok st := by
  have hst := step_noheader st st st st st st st st st st []
    (typesStep_none st [] rfl) (massesStep_none st [] rfl) (boxStep_none st [] rfl)
    rfl (pairStep_nil st) rfl (bondCoeffStep_none st [] rfl) rfl (angleCoeffStep_none st [] rfl)
    rfl (dihedralCoeffStep_nil st) rfl (improperCoeffStep_nil st) (atomsStep_none st [] rfl)
  rw [hst, bondDataStep_none st [] rfl, angleDataStep_none st [] rfl,
    dihedralDataStep_none st [] rfl]

theorem step_one_tok (st : FFState) (w : String)
    (hP : st.readPair = false) (hB : st.readBond = false) (hA : st.readAngle = false)
    (hD : st.readDihedral = false) (hI : st.readImproper = false) :
    step st [w] = Except.ok st := by
  have hst := step_noheader st st st st st st st st st st [w]
    (typesStep_none _ _ rfl) (massesStep_none _ _ rfl) (boxStep_none _ _ rfl)
    rfl (pairStep_off _ _ hP) rfl (bondCoeffStep_off _ _ hB) rfl
    (angleCoeffStep_off _ _ hA) rfl (dihedralCoeffStep_off _ _ hD) rfl
    (improperCoeffStep_off _ _ hI) (atomsStep_none _ _ rfl)
  rw [hst, bondDataStep_none _ [w] rfl, angleDataStep_none _ [w] rfl,
    dihedralDataStep_none _ [w] rfl]

theorem step_two_tok (st : FFState) (a w : String) (hmw : isMassTok w = false)
    (hpw : ("coeffs".data.isPrefixOf (lowerTok w)) = false)
    (hP : st.readPair = false) (hB : st.readBond = false) (hA : st.readAngle = false)
    (hD : st.readDihedral = false) (hI : st.readImproper = false) :
    step st [a, w] = Except.ok st := by
  have hhdr : ∀ w1 : String, hasHdr [a, w] w1 "coeffs" = false := by
    intro w1
    simp [hasHdr, hpw]
  have hm : massesGroups [a, w] = none := by simp [massesGroups, hmw]
  have hst := step_noheader st st st st st st st st st st [a, w]
    (typesStep_none _ _ rfl) (massesStep_none _ _ hm) (boxStep_none _ _ rfl)
    (hhdr _) (pairStep_off _ _ hP) (hhdr _) (bondCoeffStep_off _ _ hB) (hhdr _)
    (angleCoeffStep_off _ _ hA) (hhdr _) (dihedralCoeffStep_off _ _ hD) (hhdr _)
    (improperCoeffStep_off _ _ hI) (atomsStep_none _ _ rfl)
  rw [hst, bondDataStep_none _ [a, w] rfl, angleDataStep_none _ [a, w] rfl,
    dihedralDataStep_none _ [a, w] rfl]

theorem step_title (st : FFState)
    (hP : st.readPair = false) (hB : st.readBond = false) (hA : st.readAngle = false)
    (hD : st.readDihedral = false) (hI : st.readImproper = false) :
    step st ["Data", "file", "generated", "by", "pymatgen"] = Except.ok st := by
  have hst := step_noheader st st st st st st st st st st
    ["Data", "file", "generated", "by", "pymatgen"]
    (typesStep_none _ _ (by decide)) (massesStep_none _ _ (by decide))
    (boxStep_none _ _ (by decide))
    (by decide) (pairStep_off _ _ hP) (by decide) (bondCoeffStep_off _ _ hB) (by decide)
    (angleCoeffStep_off _ _ hA) (by decide) (dihedralCoeffStep_off _ _ hD) (by decide)
    (improperCoeffStep_off _ _ hI) (atomsStep_none _ _ rfl)
  rw [hst, bondDataStep_none _ ["Data", "file", "generated", "by", "pymatgen"] rfl,
    angleDataStep_none _ ["Data", "file", "generated", "by", "pymatgen"] rfl,
    dihedralDataStep_none _ ["Data", "file", "generated", "by", "pymatgen"] rfl]

theorem step_mass_row (st : FFState) (t : Nat) (m : String)
    (him : isMassTok m = true) (hv : validFloat m = true)
    (hP : st.readPair = false) (hB : st.readBond = false) (hA : st.readAngle = false)
    (hD : st.readDihedral = false) (hI : st.readImproper = false) :
    step st [natToTok t, m] = Except.ok
      { st with atomicMasses := st.atomicMasses ++ [[Val.vint (t : Nat), Val.vfloat m]] } := by
  have hhdr : ∀ w1 : String, hasHdr [natToTok t, m] w1 "coeffs" = false := by
    intro w1
    simp [hasHdr, lowerTok_not_coeffs m (isMassTok_isNumTok m him)]
  have hmg : massesGroups [natToTok t, m] = some (natToTok t, m) := by
    simp [massesGroups, natToTok_digits t, him]
  have e2 : massesStep st [natToTok t, m] = Except.ok
      { st with atomicMasses := st.atomicMasses ++ [[Val.vint (t : Nat), Val.vfloat m]] } := by
    simp [massesStep, hmg, pyFloatOf_valid m hv, parseNatTok_natToTok]
  have hst := step_noheader st st _ _ _ _ _ _ _ _ [natToTok t, m]
    (typesStep_none _ _ rfl) e2 (boxStep_none _ _ rfl)
    (hhdr _) (pairStep_off _ _ hP) (hhdr _) (bondCoeffStep_off _ _ hB) (hhdr _)
    (angleCoeffStep_off _ _ hA) (hhdr _) (dihedralCoeffStep_off _ _ hD) (hhdr _)
    (improperCoeffStep_off _ _ hI) (atomsStep_none _ _ rfl)
  rw [hst, bondDataStep_none _ [natToTok t, m] rfl, angleDataStep_none _ [natToTok t, m] rfl,
    dihedralDataStep_none _ [natToTok t, m] rfl]

theorem step_types_atom (st : FFState) (n : Nat)
    (hP : st.readPair = false) (hB : st.readBond = false) (hA : st.readAngle = false)
    (hD : st.readDihedral = false) (hI : st.readImproper = false) :
    step st [natToTok n, "atom", "types"] =
      Except.ok { st with natomTypes := some n, npairTypes := some n } := by
  have hhdr : ∀ w1 : String, hasHdr [natToTok n, "atom", "types"] w1 "coeffs" = false := by
    intro w1
    simp [hasHdr, show "coeffs".data.isPrefixOf (lowerTok "atom") = false from by decide,
      show "coeffs".data.isPrefixOf (lowerTok "types") = false from by decide]
  have e1 : typesStep st [natToTok n, "atom", "types"] =
      { st with natomTypes := some n, npairTypes := some n } := by
    simp [typesStep, typesGroups, natToTok_digits n, parseNatTok_natToTok,
      show isAlphaTok "atom" = true from by decide]
  have hst := step_noheader st _ _ _ _ _ _ _ _ _ [natToTok n, "atom", "types"]
    e1 (massesStep_none _ _ rfl) (boxStep_none _ _ rfl)
    (hhdr _) (pairStep_off _ _ hP) (hhdr _) (bondCoeffStep_off _ _ hB) (hhdr _)
    (angleCoeffStep_off _ _ hA) (hhdr _) (dihedralCoeffStep_off _ _ hD) (hhdr _)
    (improperCoeffStep_off _ _ hI) (atomsStep_none _ _ rfl)
  rw [hst, bondDataStep_none _ [natToTok n, "atom", "types"] rfl,
    angleDataStep_none _ [natToTok n, "atom", "types"] rfl,
    dihedralDataStep_none _ [natToTok n, "atom", "types"] rfl]

theorem step_types_bond (st : FFState) (n : Nat)
    (hP : st.readPair = false) (hB : st.readBond = false) (hA : st.readAngle = false)
    (hD : st.readDihedral = false) (hI : st.readImproper = false) :
    step st [natToTok n, "bond", "types"] =
      Except.ok { st with nbondTypes := some n } := by
  have hhdr : ∀ w1 : String, hasHdr [natToTok n, "bond", "types"] w1 "coeffs" = false := by
    intro w1
    simp [hasHdr, show "coeffs".data.isPrefixOf (lowerTok "bond") = false from by decide,
      show "coeffs".data.isPrefixOf (lowerTok "types") = false from by decide]
  have e1 : typesStep st [natToTok n, "bond", "types"] = { st with nbondTypes := some n } := by
    simp [typesStep, typesGroups, natToTok_digits n, parseNatTok_natToTok,
      show isAlphaTok "bond" = true from by decide]
  have hst := step_noheader st _ _ _ _ _ _ _ _ _ [natToTok n, "bond", "types"]
    e1 (massesStep_none _ _ rfl) (boxStep_none _ _ rfl)
    (hhdr _) (pairStep_off _ _ hP) (hhdr _) (bondCoeffStep_off _ _ hB) (hhdr _)
    (angleCoeffStep_off _ _ hA) (hhdr _) (dihedralCoeffStep_off _ _ hD) (hhdr _)
    (improperCoeffStep_off _ _ hI) (atomsStep_none _ _ rfl)
  rw [hst, bondDataStep_none _ [natToTok n, "bond", "types"] rfl,
    angleDataStep_none _ [natToTok n, "bond", "types"] rfl,
    dihedralDataStep_none _ [natToTok n, "bond", "types"] rfl]

theorem step_types_angle (st : FFState) (n : Nat)
    (hP : st.readPair = false) (hB : st.readBond = false) (hA : st.readAngle = false)
    (hD : st.readDihedral = false) (hI : st.readImproper = false) :
    step st [natToTok n, "angle", "types"] =
      Except.ok { st with nangleTypes := some n } := by
  have hhdr : ∀ w1 : String, hasHdr [natToTok n, "angle", "types"] w1 "coeffs" = false := by
    intro w1
    simp [hasHdr, show "coeffs".data.isPrefixOf (lowerTok "angle") = false from by decide,
      show "coeffs".data.isPrefixOf (lowerTok "types") = false from by decide]
  have e1 : typesStep st [natToTok n, "angle", "types"] = { st with nangleTypes := some n } := by
    simp [typesStep, typesGroups, natToTok_digits n, parseNatTok_natToTok,
      show isAlphaTok "angle" = true from by decide]
  have hst := step_noheader st _ _ _ _ _ _ _ _ _ [natToTok n, "angle", "types"]
    e1 (massesStep_none _ _ rfl) (boxStep_none _ _ rfl)
    (hhdr _) (pairStep_off _ _ hP) (hhdr _) (bondCoeffStep_off _ _ hB) (hhdr _)
    (angleCoeffStep_off _ _ hA) (hhdr _) (dihedralCoeffStep_off _ _ hD) (hhdr _)
    (improperCoeffStep_off _ _ hI) (atomsStep_none _ _ rfl)
  rw [hst, bondDataStep_none _ [natToTok n, "angle", "types"] rfl,
    angleDataStep_none _ [natToTok n, "angle", "types"] rfl,
    dihedralDataStep_none _ [natToTok n, "angle", "types"] rfl]

theorem step_types_dihedral (st : FFState) (n : Nat)
    (hP : st.readPair = false) (hB : st.readBond = false) (hA : st.readAngle = false)
    (hD : st.readDihedral = false) (hI : st.readImproper = false) :
    step st [natToTok n, "dihedral", "types"] =
      Except.ok { st with ndihedralTypes := some n } := by
  have hhdr : ∀ w1 : String, hasHdr [natToTok n, "dihedral", "types"] w1 "coeffs" = false := by
    intro w1
    simp [hasHdr, show "coeffs".data.isPrefixOf (lowerTok "dihedral") = false from by decide,
      show "coeffs".data.isPrefixOf (lowerTok "types") = false from by decide]
  have e1 : typesStep st [natToTok n, "dihedral", "types"] =
      { st with ndihedralTypes := some n } := by
    simp [typesStep, typesGroups, natToTok_digits n, parseNatTok_natToTok,
      show isAlphaTok "dihedral" = true from by decide]
  have hst := step_noheader st _ _ _ _ _ _ _ _ _ [natToTok n, "dihedral", "types"]
    e1 (massesStep_none _ _ rfl) (boxStep_none _ _ rfl)
    (hhdr _) (pairStep_off _ _ hP) (hhdr _) (bondCoeffStep_off _ _ hB) (hhdr _)
    (angleCoeffStep_off _ _ hA) (hhdr _) (dihedralCoeffStep_off _ _ hD) (hhdr _)
    (improperCoeffStep_off _ _ hI) (atomsStep_none _ _ rfl)
  rw [hst, bondDataStep_none _ [natToTok n, "dihedral", "types"] rfl,
    angleDataStep_none _ [natToTok n, "dihedral", "types"] rfl,
    dihedralDataStep_none _ [natToTok n, "dihedral", "types"] rfl]

theorem step_types_improper (st : FFState) (n : Nat)
    (hP : st.readPair = false) (hB : st.readBond = false) (hA : st.readAngle = false)
    (hD : st.readDihedral = false) (hI : st.readImproper = false) :
    step st [natToTok n, "improper", "types"] =
      Except.ok { st with nimproperTypes := some n } := by
  have hhdr : ∀ w1 : String, hasHdr [natToTok n, "improper", "types"] w1 "coeffs" = false := by
    intro w1
    simp [hasHdr, show "coeffs".data.isPrefixOf (lowerTok "improper") = false from by decide,
      show "coeffs".data.isPrefixOf (lowerTok "types") = false from by decide]
  have e1 : typesStep st [natToTok n, "improper", "types"] =
      { st with nimproperTypes := some n } := by
    simp [typesStep, typesGroups, natToTok_digits n, parseNatTok_natToTok,
      show isAlphaTok "improper" = true from by decide]
  have hst := step_noheader st _ _ _ _ _ _ _ _ _ [natToTok n, "improper", "types"]
    e1 (massesStep_none _ _ rfl) (boxStep_none _ _ rfl)
    (hhdr _) (pairStep_off _ _ hP) (hhdr _) (bondCoeffStep_off _ _ hB) (hhdr _)
    (angleCoeffStep_off _ _ hA) (hhdr _) (dihedralCoeffStep_off _ _ hD) (hhdr _)
    (improperCoeffStep_off _ _ hI) (atomsStep_none _ _ rfl)
  rw [hst, bondDataStep_none _ [natToTok n, "improper", "types"] rfl,
    angleDataStep_none _ [natToTok n, "improper", "types"] rfl,
    dihedralDataStep_none _ [natToTok n, "improper", "types"] rfl]

theorem step_box_x (st : FFState) (b1 b2 : String)
    (h1 : isNumTok b1 = true) (h2 : validFloat b1 = true)
    (h3 : isNumTok b2 = true) (h4 : validFloat b2 = true)
    (hP : st.readPair = false) (hB : st.readBond = false) (hA : st.readAngle = false)
    (hD : st.readDihedral = false) (hI : st.readImproper = false) :
    step st [b1, b2, "xlo", "xhi"] = Except.ok
      { st with boxSize := st.boxSize ++ [(Val.vfloat b1, Val.vfloat b2)] } := by
  have hhdr : ∀ w1 : String, hasHdr [b1, b2, "xlo", "xhi"] w1 "coeffs" = false := by
    intro w1
    simp [hasHdr, lowerTok_not_coeffs b2 h3,
      show "coeffs".data.isPrefixOf (lowerTok "xlo") = false from by decide,
      show "coeffs".data.isPrefixOf (lowerTok "xhi") = false from by decide]
  have e3 : boxStep st [b1, b2, "xlo", "xhi"] = Except.ok
      { st with boxSize := st.boxSize ++ [(Val.vfloat b1, Val.vfloat b2)] } := by
    simp [boxStep, boxGroups, h1, h3, pyFloatOf_valid b1 h2, pyFloatOf_valid b2 h4]
  have hbd : bondDataGroups [b1, b2, "xlo", "xhi"] = none := by
    simp [bondDataGroups, show isDigitsTok "xlo" = false from by decide]
  have hst := step_noheader st st _ _ _ _ _ _ _ _ [b1, b2, "xlo", "xhi"]
    (typesStep_none _ _ (by simp [typesGroups,
      show ("xlo" == "types") = false from by decide])) (massesStep_none _ _ rfl) e3
    (hhdr _) (pairStep_off _ _ hP) (hhdr _) (bondCoeffStep_off _ _ hB) (hhdr _)
    (angleCoeffStep_off _ _ hA) (hhdr _) (dihedralCoeffStep_off _ _ hD) (hhdr _)
    (improperCoeffStep_off _ _ hI) (atomsStep_none _ _ rfl)
  rw [hst, bondDataStep_none _ [b1, b2, "xlo", "xhi"] hbd,
    angleDataStep_none _ [b1, b2, "xlo", "xhi"] rfl,
    dihedralDataStep_none _ [b1, b2, "xlo", "xhi"] rfl]

theorem step_box_y (st : FFState) (b1 b2 : String)
    (h1 : isNumTok b1 = true) (h2 : validFloat b1 = true)
    (h3 : isNumTok b2 = true) (h4 : validFloat b2 = true)
    (hP : st.readPair = false) (hB : st.readBond = false) (hA : st.readAngle = false)
    (hD : st.readDihedral = false) (hI : st.readImproper = false) :
    step st [b1, b2, "ylo", "yhi"] = Except.ok
      { st with boxSize := st.boxSize ++ [(Val.vfloat b1, Val.vfloat b2)] } := by
  have hhdr : ∀ w1 : String, hasHdr [b1, b2, "ylo", "yhi"] w1 "coeffs" = false := by
    intro w1
    simp [hasHdr, lowerTok_not_coeffs b2 h3,
      show "coeffs".data.isPrefixOf (lowerTok "ylo") = false from by decide,
      show "coeffs".data.isPrefixOf (lowerTok "yhi") = false from by decide]
  have e3 : boxStep st [b1, b2, "ylo", "yhi"] = Except.ok
      { st with boxSize := st.boxSize ++ [(Val.vfloat b1, Val.vfloat b2)] } := by
    simp [boxStep, boxGroups, h1, h3, pyFloatOf_valid b1 h2, pyFloatOf_valid b2 h4]
  have hbd : bondDataGroups [b1, b2, "ylo", "yhi"] = none := by
    simp [bondDataGroups, show isDigitsTok "ylo" = false from by decide]
  have hst := step_noheader st st _ _ _ _ _ _ _ _ [b1, b2, "ylo", "yhi"]
    (typesStep_none _ _ (by simp [typesGroups,
      show ("ylo" == "types") = false from by decide])) (massesStep_none _ _ rfl) e3
    (hhdr _) (pairStep_off _ _ hP) (hhdr _) (bondCoeffStep_off _ _ hB) (hhdr _)
    (angleCoeffStep_off _ _ hA) (hhdr _) (dihedralCoeffStep_off _ _ hD) (hhdr _)
    (improperCoeffStep_off _ _ hI) (atomsStep_none _ _ rfl)
  rw [hst, bondDataStep_none _ [b1, b2, "ylo", "yhi"] hbd,
    angleDataStep_none _ [b1, b2, "ylo", "yhi"] rfl,
    dihedralDataStep_none _ [b1, b2, "ylo", "yhi"] rfl]

theorem step_box_z (st : FFState) (b1 b2 : String)
    (h1 : isNumTok b1 = true) (h2 : validFloat b1 = true)
    (h3 : isNumTok b2 = true) (h4 : validFloat b2 = true)
    (hP : st.readPair = false) (hB : st.readBond = false) (hA : st.readAngle = false)
    (hD : st.readDihedral = false) (hI : st.readImproper = false) :
    step st [b1, b2, "zlo", "zhi"] = Except.ok
      { st with boxSize := st.boxSize ++ [(Val.vfloat b1, Val.vfloat b2)] } := by
  have hhdr : ∀ w1 : String, hasHdr [b1, b2, "zlo", "zhi"] w1 "coeffs" = false := by
    intro w1
    simp [hasHdr, lowerTok_not_coeffs b2 h3,
      show "coeffs".data.isPrefixOf (lowerTok "zlo") = false from by decide,
      show "coeffs".data.isPrefixOf (lowerTok "zhi") = false from by decide]
  have e3 : boxStep st [b1, b2, "zlo", "zhi"] = Except.ok
      { st with boxSize := st.boxSize ++ [(Val.vfloat b1, Val.vfloat b2)] } := by
    simp [boxStep, boxGroups, h1, h3, pyFloatOf_valid b1 h2, pyFloatOf_valid b2 h4]
  have hbd : bondDataGroups [b1, b2, "zlo", "zhi"] = none := by
    simp [bondDataGroups, show isDigitsTok "zlo" = false from by decide]
  have hst := step_noheader st st _ _ _ _ _ _ _ _ [b1, b2, "zlo", "zhi"]
    (typesStep_none _ _ (by simp [typesGroups,
      show ("zlo" == "types") = false from by decide])) (massesStep_none _ _ rfl) e3
    (hhdr _) (pairStep_off _ _ hP) (hhdr _) (bondCoeffStep_off _ _ hB) (hhdr _)
    (angleCoeffStep_off _ _ hA) (hhdr _) (dihedralCoeffStep_off _ _ hD) (hhdr _)
    (improperCoeffStep_off _ _ hI) (atomsStep_none _ _ rfl)
  rw [hst, bondDataStep_none _ [b1, b2, "zlo", "zhi"] hbd,
    angleDataStep_none _ [b1, b2, "zlo", "zhi"] rfl,
    dihedralDataStep_none _ [b1, b2, "zlo", "zhi"] rfl]

theorem step_header_pair (st : FFState) :
    step st ["Pair", "Coeffs"] = Except.ok { st with readPair := true } :=
  step_hdr_pair st st st st _ (typesStep_none _ _ rfl) (massesStep_none _ _ (by decide))
    (boxStep_none _ _ rfl) (by decide)

theorem step_header_bond (st : FFState) (hP : st.readPair = false) :
    step st ["Bond", "Coeffs"] = Except.ok { st with readBond := true } :=
  step_hdr_bond st st st st st _ (typesStep_none _ _ rfl) (massesStep_none _ _ (by decide))
    (boxStep_none _ _ rfl) (by decide) (pairStep_off _ _ hP) (by decide)

theorem step_header_angle (st : FFState) (hP : st.readPair = false) :
    step st ["Angle", "Coeffs"] = Except.ok { st with readAngle := true } :=
  step_hdr_angle st st st st st st _ (typesStep_none _ _ rfl) (massesStep_none _ _ (by decide))
    (boxStep_none _ _ rfl) (by decide) (pairStep_off _ _ hP) (by decide)
    (bondCoeffStep_none _ _ rfl) (by decide)

theorem step_header_dihedral (st : FFState) (hP : st.readPair = false) :
    step st ["Dihedral", "Coeffs"] = Except.ok { st with readDihedral := true } :=
  step_hdr_dihedral st st st st st st st _ (typesStep_none _ _ rfl)
    (massesStep_none _ _ (by decide)) (boxStep_none _ _ rfl) (by decide)
    (pairStep_off _ _ hP) (by decide) (bondCoeffStep_none _ _ rfl) (by decide)
    (angleCoeffStep_none _ _ rfl) (by decide)

theorem step_header_improper (st : FFState) (hP : st.readPair = false)
    (hD : st.readDihedral = false) :
    step st ["Improper", "Coeffs"] = Except.ok { st with readImproper := true } :=
  step_hdr_improper st st st st st st st st _ (typesStep_none _ _ rfl)
    (massesStep_none _ _ (by decide)) (boxStep_none _ _ rfl) (by decide)
    (pairStep_off _ _ hP) (by decide) (bondCoeffStep_none _ _ rfl) (by decide)
    (angleCoeffStep_none _ _ rfl) (by decide) (dihedralCoeffStep_off _ _ hD) (by decide)

theorem step_pair_row (st : FFState) (a : Nat) (v1 v2 : String)
    (h1 : isNumTok v1 = true) (h2 : validFloat v1 = true)
    (h3 : isNumTok v2 = true) (h4 : validFloat v2 = true)
    (n : Nat) (hn : st.npairTypes = some n) (hp : st.readPair = true)
    (hB : st.readBond = false) (hA : st.readAngle = false)
    (hD : st.readDihedral = false) (hI : st.readImproper = false) :
    step st [natToTok a, v1, v2] = Except.ok
      { st with
        pairCoeffs := st.pairCoeffs ++ [[Val.vint (a : Nat), Val.vfloat v1, Val.vfloat v2]]
        readPair := if st.pairCoeffs.length + 1 ≥ n then false else true } := by
  have hall : [natToTok a, v1, v2].all isNumTok = true := by
    simp [natToTok_isNumTok, h1, h3]
  have hhdr := hdr_false_numeric _ hall
  have e4 : pairStep st [natToTok a, v1, v2] = Except.ok
      { st with
        pairCoeffs := st.pairCoeffs ++ [[Val.vint (a : Nat), Val.vfloat v1, Val.vfloat v2]]
        readPair := if st.pairCoeffs.length + 1 ≥ n then false else true } := by
    have hfl : pyFloatList [v1, v2] = some [v1, v2] := by
      apply pyFloatList_all
      intro t ht
      rcases List.mem_cons.mp ht with rfl | ht2
      · exact h2
      · rcases List.mem_cons.mp ht2 with rfl | ht3
        · exact h4
        · simp at ht3
    simp [pairStep, hp, readTokensRow, pyIntOf_natToTok, hfl, hn, List.length_append]
  have hst := step_noheader st st st st _ _ _ _ _ _ [natToTok a, v1, v2]
    (typesStep_none _ _ (typesGroups_none_numeric _ hall))
    (massesStep_none _ _ (massesGroups_none_len _ (by simp)))
    (boxStep_none _ _ (boxGroups_none_numeric _ hall))
    (hhdr _) e4
    (hhdr _) (bondCoeffStep_off _ _ hB)
    (hhdr _) (angleCoeffStep_off _ _ hA)
    (hhdr _) (dihedralCoeffStep_off _ _ hD)
    (hhdr _) (improperCoeffStep_off _ _ hI)
    (atomsStep_none _ _ rfl)
  rw [hst, bondDataStep_none _ [natToTok a, v1, v2] rfl,
    angleDataStep_none _ [natToTok a, v1, v2] rfl,
    dihedralDataStep_none _ [natToTok a, v1, v2] rfl]

theorem step_coeff2_bond (st : FFState) (a : Nat) (v1 v2 : String)
    (h1 : isMassTok v1 = true) (h2 : validFloat v1 = true)
    (h3 : isMassTok v2 = true) (h4 : validFloat v2 = true)
    (n : Nat) (hn : st.nbondTypes = some n) (hb : st.readBond = true)
    (hP : st.readPair = false) (hA : st.readAngle = false)
    (hD : st.readDihedral = false) (hI : st.readImproper = false) :
    step st [natToTok a, v1, v2] = Except.ok
      { st with
        bondCoeffs := st.bondCoeffs ++ [[Val.vint (a : Nat), Val.vfloat v1, Val.vfloat v2]]
        readBond := if st.bondCoeffs.length + 1 ≥ n then false else true } := by
  have hall : [natToTok a, v1, v2].all isNumTok = true := by
    simp [natToTok_isNumTok, isMassTok_isNumTok v1 h1, isMassTok_isNumTok v2 h3]
  have hhdr := hdr_false_numeric _ hall
  have e5 : bondCoeffStep st [natToTok a, v1, v2] = Except.ok
      { st with
        bondCoeffs := st.bondCoeffs ++ [[Val.vint (a : Nat), Val.vfloat v1, Val.vfloat v2]]
        readBond := if st.bondCoeffs.length + 1 ≥ n then false else true } := by
    simp [bondCoeffStep, hb, generalCoeffGroups, natToTok_digits a, h1, h3,
      pyFloatOf_valid v1 h2, pyFloatOf_valid v2 h4, parseNatTok_natToTok, hn,
      List.length_append]
  have hst := step_noheader st st st st st _ _ _ _ _ [natToTok a, v1, v2]
    (typesStep_none _ _ (typesGroups_none_numeric _ hall))
    (massesStep_none _ _ (massesGroups_none_len _ (by simp)))
    (boxStep_none _ _ (boxGroups_none_numeric _ hall))
    (hhdr _) (pairStep_off _ _ hP)
    (hhdr _) e5
    (hhdr _) (angleCoeffStep_off _ _ hA)
    (hhdr _) (dihedralCoeffStep_off _ _ hD)
    (hhdr _) (improperCoeffStep_off _ _ hI)
    (atomsStep_none _ _ rfl)
  rw [hst, bondDataStep_none _ [natToTok a, v1, v2] rfl,
    angleDataStep_none _ [natToTok a, v1, v2] rfl,
    dihedralDataStep_none _ [natToTok a, v1, v2] rfl]

theorem step_coeff2_angle (st : FFState) (a : Nat) (v1 v2 : String)
    (h1 : isMassTok v1 = true) (h2 : validFloat v1 = true)
    (h3 : isMassTok v2 = true) (h4 : validFloat v2 = true)
    (n : Nat) (hn : st.nangleTypes = some n) (ha : st.readAngle = true)
    (hP : st.readPair = false) (hB : st.readBond = false)
    (hD : st.readDihedral = false) (hI : st.readImproper = false) :
    step st [natToTok a, v1, v2] = Except.ok
      { st with
        angleCoeffs := st.angleCoeffs ++ [[Val.vint (a : Nat), Val.vfloat v1, Val.vfloat v2]]
        readAngle := if st.angleCoeffs.length + 1 ≥ n then false else true } := by
  have hall : [natToTok a, v1, v2].all isNumTok = true := by
    simp [natToTok_isNumTok, isMassTok_isNumTok v1 h1, isMassTok_isNumTok v2 h3]
  have hhdr := hdr_false_numeric _ hall
  have e6 : angleCoeffStep st [natToTok a, v1, v2] = Except.ok
      { st with
        angleCoeffs := st.angleCoeffs ++ [[Val.vint (a : Nat), Val.vfloat v1, Val.vfloat v2]]
        readAngle := if st.angleCoeffs.length + 1 ≥ n then false else true } := by
    simp [angleCoeffStep, ha, generalCoeffGroups, natToTok_digits a, h1, h3,
      pyFloatOf_valid v1 h2, pyFloatOf_valid v2 h4, parseNatTok_natToTok, hn,
      List.length_append]
  have hst := step_noheader st st st st st st _ _ _ _ [natToTok a, v1, v2]
    (typesStep_none _ _ (typesGroups_none_numeric _ hall))
    (massesStep_none _ _ (massesGroups_none_len _ (by simp)))
    (boxStep_none _ _ (boxGroups_none_numeric _ hall))
    (hhdr _) (pairStep_off _ _ hP)
    (hhdr _) (bondCoeffStep_off _ _ hB)
    (hhdr _) e6
    (hhdr _) (dihedralCoeffStep_off _ _ hD)
    (hhdr _) (improperCoeffStep_off _ _ hI)
    (atomsStep_none _ _ rfl)
  rw [hst, bondDataStep_none _ [natToTok a, v1, v2] rfl,
    angleDataStep_none _ [natToTok a, v1, v2] rfl,
    dihedralDataStep_none _ [natToTok a, v1, v2] rfl]

theorem step_dihc_row (st : FFState) (a : Nat) (vs : List String)
    (hlen : 2 ≤ vs.length)
    (hvs : vs.all (fun s => isNumTok s && validFloat s && s.data.contains '.') = true)
    (n : Nat) (hn : st.ndihedralTypes = some n) (hd : st.readDihedral = true)
    (hP : st.readPair = false) (hB : st.readBond = false)
    (hA : st.readAngle = false) (hI : st.readImproper = false) :
    step st (natToTok a :: vs) = Except.ok
      { st with
        dihedralCoeffs := st.dihedralCoeffs ++ [Val.vint (a : Nat) :: vs.map Val.vfloat]
        readDihedral := if st.dihedralCoeffs.length + 1 ≥ n then false else true } := by
  have hmem : ∀ s ∈ vs, isNumTok s = true ∧ validFloat s = true ∧ s.data.contains '.' = true := by
    intro s hs
    have := (List.all_eq_true.mp hvs) s hs
    simp only [Bool.and_eq_true] at this
    exact ⟨this.1.1, this.1.2, this.2⟩
  have hall : (natToTok a :: vs).all isNumTok = true := by
    simp only [List.all_cons, Bool.and_eq_true, natToTok_isNumTok, true_and, List.all_eq_true]
    exact fun s hs => (hmem s hs).1
  have hhdr := hdr_false_numeric _ hall
  have hsnd : ∀ s, (natToTok a :: vs).get? 1 = some s → isDigitsTok s = false := by
    intro s hs
    simp only [List.get?] at hs
    have hmem2 : s ∈ vs := List.get?_mem hs
    exact dotted_not_digits s (hmem2 |> hmem s |>.2.2)
  have e7 : dihedralCoeffStep st (natToTok a :: vs) = Except.ok
      { st with
        dihedralCoeffs := st.dihedralCoeffs ++ [Val.vint (a : Nat) :: vs.map Val.vfloat]
        readDihedral := if st.dihedralCoeffs.length + 1 ≥ n then false else true } := by
    simp [dihedralCoeffStep, hd, readTokensRow, pyIntOf_natToTok,
      pyFloatList_all vs (fun t ht => (hmem t ht).2.1), hn, List.length_append]
  have hst := step_noheader st st st st st st st _ _ _ (natToTok a :: vs)
    (typesStep_none _ _ (typesGroups_none_numeric _ hall))
    (massesStep_none _ _ (massesGroups_none_len _ (by simp; omega)))
    (boxStep_none _ _ (boxGroups_none_numeric _ hall))
    (hhdr _) (pairStep_off _ _ hP)
    (hhdr _) (bondCoeffStep_off _ _ hB)
    (hhdr _) (angleCoeffStep_off _ _ hA)
    (hhdr _) e7
    (hhdr _) (improperCoeffStep_off _ _ hI)
    (atomsStep_none _ _ (atomsGroups_none_snd _ hsnd))
  rw [hst, bondDataStep_none _ (natToTok a :: vs) (bondDataGroups_none_snd _ hsnd),
    angleDataStep_none _ (natToTok a :: vs) (angleDataGroups_none_snd _ hsnd),
    dihedralDataStep_none _ (natToTok a :: vs) (dihedralDataGroups_none_snd _ hsnd)]

theorem step_atom_row (st : FFState) (k1 k2 k3 : Nat) (f4 f5 f6 f7 : String)
    (h4 : isNumTok f4 = true) (h4v : validFloat f4 = true)
    (h5 : isNumTok f5 = true) (h5v : validFloat f5 = true)
    (h6 : isNumTok f6 = true) (h6v : validFloat f6 = true)
    (h7 : isNumTok f7 = true) (h7v : validFloat f7 = true)
    (hP : st.readPair = false) (hB : st.readBond = false) (hA : st.readAngle = false)
    (hD : st.readDihedral = false) (hI : st.readImproper = false) :
    step st [natToTok k1, natToTok k2, natToTok k3, f4, f5, f6, f7] = Except.ok
      { st with atomsData := st.atomsData ++
          [[Val.vint (k1 : Nat), Val.vint (k2 : Nat), Val.vint (k3 : Nat),
            Val.vfloat f4, Val.vfloat f5, Val.vfloat f6, Val.vfloat f7]] } := by
  have hall : [natToTok k1, natToTok k2, natToTok k3, f4, f5, f6, f7].all isNumTok = true := by
    simp [natToTok_isNumTok, h4, h5, h6, h7]
  have hhdr := hdr_false_numeric _ hall
  have hrun : f7.data.takeWhile numChar = f7.data := by
    apply takeWhile_all_eq
    simp only [isNumTok, Bool.and_eq_true] at h7
    exact h7.2
  have hne7 : f7.data.isEmpty = false := by
    simp only [isNumTok, Bool.and_eq_true, Bool.not_eq_true'] at h7
    exact h7.1
  have hag : atomsGroups [natToTok k1, natToTok k2, natToTok k3, f4, f5, f6, f7] =
      some (natToTok k1, natToTok k2, natToTok k3, f4, f5, f6, f7) := by
    simp only [atomsGroups, hrun, natToTok_digits, h4, h5, h6, hne7, Bool.not_false,
      Bool.and_true, Bool.and_self, if_true, strMk_data]
  have e9 : atomsStep st [natToTok k1, natToTok k2, natToTok k3, f4, f5, f6, f7] = Except.ok
      { st with atomsData := st.atomsData ++
          [[Val.vint (k1 : Nat), Val.vint (k2 : Nat), Val.vint (k3 : Nat),
            Val.vfloat f4, Val.vfloat f5, Val.vfloat f6, Val.vfloat f7]] } := by
    simp [atomsStep, hag, pyFloatOf_valid f4 h4v, pyFloatOf_valid f5 h5v,
      pyFloatOf_valid f6 h6v, pyFloatOf_valid f7 h7v, parseNatTok_natToTok]
  have hst := step_noheader st st st st st st st st st _
    [natToTok k1, natToTok k2, natToTok k3, f4, f5, f6, f7]
    (typesStep_none _ _ (typesGroups_none_numeric _ hall))
    (massesStep_none _ _ (massesGroups_none_len _ (by simp)))
    (boxStep_none _ _ (boxGroups_none_numeric _ hall))
    (hhdr _) (pairStep_off _ _ hP)
    (hhdr _) (bondCoeffStep_off _ _ hB)
    (hhdr _) (angleCoeffStep_off _ _ hA)
    (hhdr _) (dihedralCoeffStep_off _ _ hD)
    (hhdr _) (improperCoeffStep_off _ _ hI)
    e9
  rw [hst, bondDataStep_none _ [natToTok k1, natToTok k2, natToTok k3, f4, f5, f6, f7] rfl,
    angleDataStep_none _ [natToTok k1, natToTok k2, natToTok k3, f4, f5, f6, f7] rfl,
    dihedralDataStep_none _ [natToTok k1, natToTok k2, natToTok k3, f4, f5, f6, f7] rfl]

theorem step_bond_data_row (st : FFState) (k1 k2 k3 k4 : Nat)
    (hP : st.readPair = false) (hB : st.readBond = false) (hA : st.readAngle = false)
    (hD : st.readDihedral = false) (hI : st.readImproper = false)
    (hne : st.atomsData.isEmpty = false) :
    step st [natToTok k1, natToTok k2, natToTok k3, natToTok k4] = Except.ok
      { st with bondsData := st.bondsData ++
          [[Val.vint (k1 : Nat), Val.vint (k2 : Nat), Val.vint (k3 : Nat),
            Val.vint (k4 : Nat)]] } := by
  have hall : [natToTok k1, natToTok k2, natToTok k3, natToTok k4].all isNumTok = true := by
    simp [natToTok_isNumTok]
  have hhdr := hdr_false_numeric _ hall
  have hbg : bondDataGroups [natToTok k1, natToTok k2, natToTok k3, natToTok k4] =
      some (natToTok k1, natToTok k2, natToTok k3, natToTok k4) := by
    simp [bondDataGroups, natToTok_digits]
  have hbd : bondDataStep st [natToTok k1, natToTok k2, natToTok k3, natToTok k4] =
      { st with bondsData := st.bondsData ++
          [[Val.vint (k1 : Nat), Val.vint (k2 : Nat), Val.vint (k3 : Nat),
            Val.vint (k4 : Nat)]] } := by
    simp [bondDataStep, hbg, hne, parseNatTok_natToTok]
  have hst := step_noheader st st st st st st st st st st
    [natToTok k1, natToTok k2, natToTok k3, natToTok k4]
    (typesStep_none _ _ rfl)
    (massesStep_none _ _ rfl)
    (boxStep_none _ _ (boxGroups_none_numeric _ hall))
    (hhdr _) (pairStep_off _ _ hP)
    (hhdr _) (bondCoeffStep_off _ _ hB)
    (hhdr _) (angleCoeffStep_off _ _ hA)
    (hhdr _) (dihedralCoeffStep_off _ _ hD)
    (hhdr _) (improperCoeffStep_off _ _ hI)
    (atomsStep_none _ _ rfl)
  rw [hst, hbd,
    angleDataStep_none _ [natToTok k1, natToTok k2, natToTok k3, natToTok k4] rfl,
    dihedralDataStep_none _ [natToTok k1, natToTok k2, natToTok k3, natToTok k4] rfl]

theorem step_angle_data_row (st : FFState) (k1 k2 k3 k4 k5 : Nat)
    (hP : st.readPair = false) (hB : st.readBond = false) (hA : st.readAngle = false)
    (hD : st.readDihedral = false) (hI : st.readImproper = false)
    (hne : st.atomsData.isEmpty = false) :
    step st [natToTok k1, natToTok k2, natToTok k3, natToTok k4, natToTok k5] = Except.ok
      { st with anglesData := st.anglesData ++
          [[Val.vint (k1 : Nat), Val.vint (k2 : Nat), Val.vint (k3 : Nat),
            Val.vint (k4 : Nat), Val.vint (k5 : Nat)]] } := by
  have hall : [natToTok k1, natToTok k2, natToTok k3, natToTok k4,
      natToTok k5].all isNumTok = true := by
    simp [natToTok_isNumTok]
  have hhdr := hdr_false_numeric _ hall
  have hag : angleDataGroups [natToTok k1, natToTok k2, natToTok k3, natToTok k4, natToTok k5] =
      some (natToTok k1, natToTok k2, natToTok k3, natToTok k4, natToTok k5) := by
    simp [angleDataGroups, natToTok_digits]
  have had : angleDataStep st [natToTok k1, natToTok k2, natToTok k3, natToTok k4, natToTok k5] =
      { st with anglesData := st.anglesData ++
          [[Val.vint (k1 : Nat), Val.vint (k2 : Nat), Val.vint (k3 : Nat),
            Val.vint (k4 : Nat), Val.vint (k5 : Nat)]] } := by
    simp [angleDataStep, hag, hne, parseNatTok_natToTok]
  have hst := step_noheader st st st st st st st st st st
    [natToTok k1, natToTok k2, natToTok k3, natToTok k4, natToTok k5]
    (typesStep_none _ _ rfl)
    (massesStep_none _ _ rfl)
    (boxStep_none _ _ (boxGroups_none_numeric _ hall))
    (hhdr _) (pairStep_off _ _ hP)
    (hhdr _) (bondCoeffStep_off _ _ hB)
    (hhdr _) (angleCoeffStep_off _ _ hA)
    (hhdr _) (dihedralCoeffStep_off _ _ hD)
    (hhdr _) (improperCoeffStep_off _ _ hI)
    (atomsStep_none _ _ rfl)
  rw [hst,
    bondDataStep_none _ [natToTok k1, natToTok k2, natToTok k3, natToTok k4, natToTok k5] rfl,
    had,
    dihedralDataStep_none _ [natToTok k1, natToTok k2, natToTok k3, natToTok k4, natToTok k5] rfl]

theorem step_dih_data_row (st : FFState) (k1 k2 k3 k4 k5 k6 : Nat)
    (hP : st.readPair = false) (hB : st.readBond = false) (hA : st.readAngle = false)
    (hD : st.readDihedral = false) (hI : st.readImproper = false)
    (hne : st.atomsData.isEmpty = false) :
    step st [natToTok k1, natToTok k2, natToTok k3, natToTok k4, natToTok k5, natToTok k6] =
      Except.ok
      { st with dihedralData := st.dihedralData ++
          [[Val.vint (k1 : Nat), Val.vint (k2 : Nat), Val.vint (k3 : Nat),
            Val.vint (k4 : Nat), Val.vint (k5 : Nat), Val.vint (k6 : Nat)]] } := by
  have hall : [natToTok k1, natToTok k2, natToTok k3, natToTok k4, natToTok k5,
      natToTok k6].all isNumTok = true := by
    simp [natToTok_isNumTok]
  have hhdr := hdr_false_numeric _ hall
  have hdg : dihedralDataGroups [natToTok k1, natToTok k2, natToTok k3, natToTok k4,
      natToTok k5, natToTok k6] =
      some (natToTok k1, natToTok k2, natToTok k3, natToTok k4, natToTok k5, natToTok k6) := by
    simp [dihedralDataGroups, natToTok_digits]
  have hdd : dihedralDataStep st [natToTok k1, natToTok k2, natToTok k3, natToTok k4,
      natToTok k5, natToTok k6] =
      { st with dihedralData := st.dihedralData ++
          [[Val.vint (k1 : Nat), Val.vint (k2 : Nat), Val.vint (k3 : Nat),
            Val.vint (k4 : Nat), Val.vint (k5 : Nat), Val.vint (k6 : Nat)]] } := by
    simp [dihedralDataStep, hdg, hne, parseNatTok_natToTok]
  have hst := step_noheader st st st st st st st st st st
    [natToTok k1, natToTok k2, natToTok k3, natToTok k4, natToTok k5, natToTok k6]
    (typesStep_none _ _ rfl)
    (massesStep_none _ _ rfl)
    (boxStep_none _ _ (boxGroups_none_numeric _ hall))
    (hhdr _) (pairStep_off _ _ hP)
    (hhdr _) (bondCoeffStep_off _ _ hB)
    (hhdr _) (angleCoeffStep_off _ _ hA)
    (hhdr _) (dihedralCoeffStep_off _ _ hD)
    (hhdr _) (improperCoeffStep_off _ _ hI)
    (atomsStep_none _ _ rfl)
  rw [hst,
    bondDataStep_none _ [natToTok k1, natToTok k2, natToTok k3, natToTok k4, natToTok k5,
      natToTok k6] rfl,
    angleDataStep_none _ [natToTok k1, natToTok k2, natToTok k3, natToTok k4, natToTok k5,
      natToTok k6] rfl,
    hdd]

theorem step_mass_row_during_pair (st : FFState) (t : Nat) (m : String)
    (him : isMassTok m = true) (hv : validFloat m = true)
    (n : Nat) (hn : st.npairTypes = some n) (hp : st.readPair = true)
    (hB : st.readBond = false) (hA : st.readAngle = false)
    (hD : st.readDihedral = false) (hI : st.readImproper = false) :
    step st [natToTok t, m] = Except.ok
      { st with
        atomicMasses := st.atomicMasses ++ [[Val.vint (t : Nat), Val.vfloat m]]
        pairCoeffs := st.pairCoeffs ++ [[Val.vint (t : Nat), Val.vfloat m]]
        readPair := if st.pairCoeffs.length + 1 ≥ n then false else true } := by
  have hhdr : ∀ w1 : String, hasHdr [natToTok t, m] w1 "coeffs" = false := by
    intro w1
    simp [hasHdr, lowerTok_not_coeffs m (isMassTok_isNumTok m him)]
  have hmg : massesGroups [natToTok t, m] = some (natToTok t, m) := by
    simp [massesGroups, natToTok_digits t, him]
  have e2 : massesStep st [natToTok t, m] = Except.ok
      { st with atomicMasses := st.atomicMasses ++ [[Val.vint (t : Nat), Val.vfloat m]] } := by
    simp [massesStep, hmg, pyFloatOf_valid m hv, parseNatTok_natToTok]
  have e4 : pairStep
      { st with atomicMasses := st.atomicMasses ++ [[Val.vint (t : Nat), Val.vfloat m]] }
      [natToTok t, m] = Except.ok
      { st with
        atomicMasses := st.atomicMasses ++ [[Val.vint (t : Nat), Val.vfloat m]]
        pairCoeffs := st.pairCoeffs ++ [[Val.vint (t : Nat), Val.vfloat m]]
        readPair := if st.pairCoeffs.length + 1 ≥ n then false else true } := by
    have hfl : pyFloatList [m] = some [m] := by
      apply pyFloatList_all
      intro x hx
      rcases List.mem_cons.mp hx with rfl | hx2
      · exact hv
      · simp at hx2
    simp [pairStep, hp, readTokensRow, pyIntOf_natToTok, hfl, hn, List.length_append]
  have hst := step_noheader st st _ _ _ _ _ _ _ _ [natToTok t, m]
    (typesStep_none _ _ rfl) e2 (boxStep_none _ _ rfl)
    (hhdr _) e4
    (hhdr _) (bondCoeffStep_off _ _ hB)
    (hhdr _) (angleCoeffStep_off _ _ hA)
    (hhdr _) (dihedralCoeffStep_off _ _ hD)
    (hhdr _) (improperCoeffStep_off _ _ hI)
    (atomsStep_none _ _ rfl)
  rw [hst, bondDataStep_none _ [natToTok t, m] rfl, angleDataStep_none _ [natToTok t, m] rfl,
    dihedralDataStep_none _ [natToTok t, m] rfl]

theorem step_mass_row_during_bond (st : FFState) (t : Nat) (m : String)
    (him : isMassTok m = true) (hv : validFloat m = true)
    (hb : st.readBond = true) (hP : st.readPair = false) (hA : st.readAngle = false)
    (hD : st.readDihedral = false) (hI : st.readImproper = false) :
    step st [natToTok t, m] = Except.ok
      { st with atomicMasses := st.atomicMasses ++ [[Val.vint (t : Nat), Val.vfloat m]] } := by
  have hhdr : ∀ w1 : String, hasHdr [natToTok t, m] w1 "coeffs" = false := by
    intro w1
    simp [hasHdr, lowerTok_not_coeffs m (isMassTok_isNumTok m him)]
  have hmg : massesGroups [natToTok t, m] = some (natToTok t, m) := by
    simp [massesGroups, natToTok_digits t, him]
  have e2 : massesStep st [natToTok t, m] = Except.ok
      { st with atomicMasses := st.atomicMasses ++ [[Val.vint (t : Nat), Val.vfloat m]] } := by
    simp [massesStep, hmg, pyFloatOf_valid m hv, parseNatTok_natToTok]
  have hst := step_noheader st st _ _ _ _ _ _ _ _ [natToTok t, m]
    (typesStep_none _ _ rfl) e2 (boxStep_none _ _ rfl)
    (hhdr _) (pairStep_off _ _ hP)
    (hhdr _) (bondCoeffStep_none _ _ rfl)
    (hhdr _) (angleCoeffStep_off _ _ hA)
    (hhdr _) (dihedralCoeffStep_off _ _ hD)
    (hhdr _) (improperCoeffStep_off _ _ hI)
    (atomsStep_none _ _ rfl)
  rw [hst, bondDataStep_none _ [natToTok t, m] rfl, angleDataStep_none _ [natToTok t, m] rfl,
    dihedralDataStep_none _ [natToTok t, m] rfl]

/-! Seed forms of well-formed rows: every well-formed record row arises by
rendering one of these, which lets the round-trip theorem quantify over
row contents with primitive types. -/

def mkMassRow (p : Nat × String) : Row := [Val.vint (p.1 : Nat), Val.vfloat p.2]

def mkCoeff2Row (p : Nat × String × String) : Row :=
  [Val.vint (p.1 : Nat), Val.vfloat p.2.1, Val.vfloat p.2.2]

def mkMultiRow (p : Nat × List String) : Row := Val.vint (p.1 : Nat) :: p.2.map Val.vfloat

def mkAtomRow (p : Nat × Nat × Nat × String × String × String × String) : Row :=
  [Val.vint (p.1 : Nat), Val.vint (p.2.1 : Nat), Val.vint (p.2.2.1 : Nat),
   Val.vfloat p.2.2.2.1, Val.vfloat p.2.2.2.2.1, Val.vfloat p.2.2.2.2.2.1,
   Val.vfloat p.2.2.2.2.2.2]

def mkBondRow (p : Nat × Nat × Nat × Nat) : Row :=
  [Val.vint (p.1 : Nat), Val.vint (p.2.1 : Nat), Val.vint (p.2.2.1 : Nat),
   Val.vint (p.2.2.2 : Nat)]

def mkAngleRow (p : Nat × Nat × Nat × Nat × Nat) : Row :=
  [Val.vint (p.1 : Nat), Val.vint (p.2.1 : Nat), Val.vint (p.2.2.1 : Nat),
   Val.vint (p.2.2.2.1 : Nat), Val.vint (p.2.2.2.2 : Nat)]

def mkDihRow (p : Nat × Nat × Nat × Nat × Nat × Nat) : Row :=
  [Val.vint (p.1 : Nat), Val.vint (p.2.1 : Nat), Val.vint (p.2.2.1 : Nat),
   Val.vint (p.2.2.2.1 : Nat), Val.vint (p.2.2.2.2.1 : Nat), Val.vint (p.2.2.2.2.2 : Nat)]

theorem renderRow_mkMassRow (p : Nat × String) :
    renderRow (mkMassRow p) = [natToTok p.1, p.2] := by
  simp [renderRow, mkMassRow, Val.render, intToTok_natCast]

theorem renderRow_mkCoeff2Row (p : Nat × String × String) :
    renderRow (mkCoeff2Row p) = [natToTok p.1, p.2.1, p.2.2] := by
  simp [renderRow, mkCoeff2Row, Val.render, intToTok_natCast]

theorem renderRow_mkMultiRow (p : Nat × List String) :
    renderRow (mkMultiRow p) = natToTok p.1 :: p.2 := by
  have h2 : ∀ l : List String, List.map (Val.render ∘ Val.vfloat) l = l := by
    intro l
    induction l with
    | nil => rfl
    | cons a l ihl => simp [ihl, Val.render]
  simp [renderRow, mkMultiRow, Val.render, intToTok_natCast, List.map_map, h2]

theorem renderRow_mkAtomRow (p : Nat × Nat × Nat × String × String × String × String) :
    renderRow (mkAtomRow p) = [natToTok p.1, natToTok p.2.1, natToTok p.2.2.1,
      p.2.2.2.1, p.2.2.2.2.1, p.2.2.2.2.2.1, p.2.2.2.2.2.2] := by
  simp [renderRow, mkAtomRow, Val.render, intToTok_natCast]

theorem renderRow_mkBondRow (p : Nat × Nat × Nat × Nat) :
    renderRow (mkBondRow p) = [natToTok p.1, natToTok p.2.1, natToTok p.2.2.1,
      natToTok p.2.2.2] := by
  simp [renderRow, mkBondRow, Val.render, intToTok_natCast]

theorem renderRow_mkAngleRow (p : Nat × Nat × Nat × Nat × Nat) :
    renderRow (mkAngleRow p) = [natToTok p.1, natToTok p.2.1, natToTok p.2.2.1,
      natToTok p.2.2.2.1, natToTok p.2.2.2.2] := by
  simp [renderRow, mkAngleRow, Val.render, intToTok_natCast]

theorem renderRow_mkDihRow (p : Nat × Nat × Nat × Nat × Nat × Nat) :
    renderRow (mkDihRow p) = [natToTok p.1, natToTok p.2.1, natToTok p.2.2.1,
      natToTok p.2.2.2.1, natToTok p.2.2.2.2.1, natToTok p.2.2.2.2.2] := by
  simp [renderRow, mkDihRow, Val.render, intToTok_natCast]

/-! Running the line loop over writer segments. -/

theorem runLines_append_ok (xs : List (List String)) : ∀ (st st2 : FFState)
    (ys : List (List String)), runLines st xs = Except.ok st2 →
    runLines st (xs ++ ys) = runLines st2 ys := by
  induction xs with
  | nil =>
    intro st st2 ys h
    simp only [runLines] at h
    cases h
    simp
  | cons l ls ih =>
    intro st st2 ys h
    simp only [runLines] at h ⊢
    cases hs : step st l with
    | error e => rw [hs] at h; simp at h
    | ok st3 =>
      rw [hs] at h
      simp only [List.cons_append]
      exact ih st3 st2 ys h

theorem runLines_mass_rows : ∀ (massesS : List (Nat × String)) (st : FFState),
    (∀ p ∈ massesS, isMassTok p.2 = true ∧ validFloat p.2 = true) →
    st.readPair = false → st.readBond = false → st.readAngle = false →
    st.readDihedral = false → st.readImproper = false →
    runLines st (massesS.map (fun p => [natToTok p.1, p.2])) =
      Except.ok { st with atomicMasses := st.atomicMasses ++ massesS.map mkMassRow } := by
  intro massesS
  induction massesS with
  | nil =>
    intro st h hP hB hA hD hI
    simp [runLines]
  | cons p rest ih =>
    intro st h hP hB hA hD hI
    obtain ⟨t, m⟩ := p
    have hstep := step_mass_row st t m (h (t, m) (by simp)).1 (h (t, m) (by simp)).2 hP hB hA hD hI
    simp only [List.map_cons, runLines, hstep]
    rw [ih { st with atomicMasses := st.atomicMasses ++ [[Val.vint (t : Nat), Val.vfloat m]] }
      (fun q hq => h q (by simp [hq])) hP hB hA hD hI]
    simp [mkMassRow, List.append_assoc]

theorem runLines_atom_rows : ∀ (atomsS : List (Nat × Nat × Nat × String × String × String × String))
    (st : FFState),
    (∀ p ∈ atomsS, (isNumTok p.2.2.2.1 && validFloat p.2.2.2.1 &&
      (isNumTok p.2.2.2.2.1 && validFloat p.2.2.2.2.1) &&
      (isNumTok p.2.2.2.2.2.1 && validFloat p.2.2.2.2.2.1) &&
      (isNumTok p.2.2.2.2.2.2 && validFloat p.2.2.2.2.2.2)) = true) →
    st.readPair = false → st.readBond = false → st.readAngle = false →
    st.readDihedral = false → st.readImproper = false →
    runLines st (atomsS.map (fun p => [natToTok p.1, natToTok p.2.1, natToTok p.2.2.1,
      p.2.2.2.1, p.2.2.2.2.1, p.2.2.2.2.2.1, p.2.2.2.2.2.2])) =
      Except.ok { st with atomsData := st.atomsData ++ atomsS.map mkAtomRow } := by
  intro atomsS
  induction atomsS with
  | nil =>
    intro st h hP hB hA hD hI
    simp [runLines]
  | cons p rest ih =>
    intro st h hP hB hA hD hI
    obtain ⟨k1, k2, k3, f4, f5, f6, f7⟩ := p
    have hp := h _ (List.mem_cons_self _ _)
    simp only [Bool.and_eq_true] at hp
    have hstep := step_atom_row st k1 k2 k3 f4 f5 f6 f7
      hp.1.1.1.1 hp.1.1.1.2 hp.1.1.2.1 hp.1.1.2.2 hp.1.2.1 hp.1.2.2 hp.2.1 hp.2.2
      hP hB hA hD hI
    simp only [List.map_cons, runLines, hstep]
    rw [ih { st with atomsData := st.atomsData ++ [[Val.vint (k1 : Nat), Val.vint (k2 : Nat),
        Val.vint (k3 : Nat), Val.vfloat f4, Val.vfloat f5, Val.vfloat f6, Val.vfloat f7]] }
      (fun q hq => h q (by simp [hq])) hP hB hA hD hI]
    simp [mkAtomRow, List.append_assoc]

theorem runLines_bond_data_rows : ∀ (bondsS : List (Nat × Nat × Nat × Nat)) (st : FFState),
    st.readPair = false → st.readBond = false → st.readAngle = false →
    st.readDihedral = false → st.readImproper = false → st.atomsData.isEmpty = false →
    runLines st (bondsS.map (fun p => [natToTok p.1, natToTok p.2.1, natToTok p.2.2.1,
      natToTok p.2.2.2])) =
      Except.ok { st with bondsData := st.bondsData ++ bondsS.map mkBondRow } := by
  intro bondsS
  induction bondsS with
  | nil =>
    intro st hP hB hA hD hI hne
    simp [runLines]
  | cons p rest ih =>
    intro st hP hB hA hD hI hne
    obtain ⟨k1, k2, k3, k4⟩ := p
    have hstep := step_bond_data_row st k1 k2 k3 k4 hP hB hA hD hI hne
    simp only [List.map_cons, runLines, hstep]
    rw [ih { st with bondsData := st.bondsData ++ [[Val.vint (k1 : Nat), Val.vint (k2 : Nat),
        Val.vint (k3 : Nat), Val.vint (k4 : Nat)]] } hP hB hA hD hI hne]
    simp [mkBondRow, List.append_assoc]

theorem runLines_angle_data_rows : ∀ (anglesS : List (Nat × Nat × Nat × Nat × Nat)) (st : FFState),
    st.readPair = false → st.readBond = false → st.readAngle = false →
    st.readDihedral = false → st.readImproper = false → st.atomsData.isEmpty = false →
    runLines st (anglesS.map (fun p => [natToTok p.1, natToTok p.2.1, natToTok p.2.2.1,
      natToTok p.2.2.2.1, natToTok p.2.2.2.2])) =
      Except.ok { st with anglesData := st.anglesData ++ anglesS.map mkAngleRow } := by
  intro anglesS
  induction anglesS with
  | nil =>
    intro st hP hB hA hD hI hne
    simp [runLines]
  | cons p rest ih =>
    intro st hP hB hA hD hI hne
    obtain ⟨k1, k2, k3, k4, k5⟩ := p
    have hstep := step_angle_data_row st k1 k2 k3 k4 k5 hP hB hA hD hI hne
    simp only [List.map_cons, runLines, hstep]
    rw [ih { st with anglesData := st.anglesData ++ [[Val.vint (k1 : Nat), Val.vint (k2 : Nat),
        Val.vint (k3 : Nat), Val.vint (k4 : Nat), Val.vint (k5 : Nat)]] } hP hB hA hD hI hne]
    simp [mkAngleRow, List.append_assoc]

theorem runLines_dih_data_rows : ∀ (dihsS : List (Nat × Nat × Nat × Nat × Nat × Nat))
    (st : FFState),
    st.readPair = false → st.readBond = false → st.readAngle = false →
    st.readDihedral = false → st.readImproper = false → st.atomsData.isEmpty = false →
    runLines st (dihsS.map (fun p => [natToTok p.1, natToTok p.2.1, natToTok p.2.2.1,
      natToTok p.2.2.2.1, natToTok p.2.2.2.2.1, natToTok p.2.2.2.2.2])) =
      Except.ok { st with dihedralData := st.dihedralData ++ dihsS.map mkDihRow } := by
  intro dihsS
  induction dihsS with
  | nil =>
    intro st hP hB hA hD hI hne
    simp [runLines]
  | cons p rest ih =>
    intro st hP hB hA hD hI hne
    obtain ⟨k1, k2, k3, k4, k5, k6⟩ := p
    have hstep := step_dih_data_row st k1 k2 k3 k4 k5 k6 hP hB hA hD hI hne
    simp only [List.map_cons, runLines, hstep]
    rw [ih { st with dihedralData := st.dihedralData ++ [[Val.vint (k1 : Nat), Val.vint (k2 : Nat),
        Val.vint (k3 : Nat), Val.vint (k4 : Nat), Val.vint (k5 : Nat),
        Val.vint (k6 : Nat)]] } hP hB hA hD hI hne]
    simp [mkDihRow, List.append_assoc]

theorem runLines_pair_rows : ∀ (pairS : List (Nat × String × String)) (st : FFState) (n : Nat),
    (∀ p ∈ pairS, (isNumTok p.2.1 && validFloat p.2.1 &&
      (isNumTok p.2.2 && validFloat p.2.2)) = true) →
    st.npairTypes = some n → st.readPair = true →
    st.readBond = false → st.readAngle = false → st.readDihedral = false →
    st.readImproper = false →
    st.pairCoeffs.length + pairS.length = n → pairS ≠ [] →
    runLines st (pairS.map (fun p => [natToTok p.1, p.2.1, p.2.2])) =
      Except.ok { st with pairCoeffs := st.pairCoeffs ++ pairS.map mkCoeff2Row, readPair := false } := by
  intro pairS
  induction pairS with
  | nil =>
    intro st n hv hn hp hB hA hD hI hlen hne
    exact absurd rfl hne
  | cons p rest ih =>
    intro st n hv hn hp hB hA hD hI hlen hne
    obtain ⟨a, v1, v2⟩ := p
    have hpv := hv _ (List.mem_cons_self _ _)
    simp only [Bool.and_eq_true] at hpv
    have hstep := step_pair_row st a v1 v2 hpv.1.1 hpv.1.2 hpv.2.1 hpv.2.2 n hn hp hB hA hD hI
    by_cases hrest : rest = []
    · subst hrest
      rw [if_pos (by simp at hlen; omega)] at hstep
      simp only [List.map_cons, List.map_nil, runLines, hstep]
      simp [mkCoeff2Row]
    · have hpos : 0 < rest.length := List.length_pos.mpr hrest
      rw [if_neg (by simp at hlen; omega)] at hstep
      simp only [List.map_cons, runLines, hstep]
      rw [ih { st with pairCoeffs := st.pairCoeffs ++ [[Val.vint (a : Nat), Val.vfloat v1, Val.vfloat v2]], readPair := true } n (fun q hq => hv q (by simp [hq])) hn rfl hB hA hD hI
        (by simp at hlen ⊢; omega) hrest]
      simp [mkCoeff2Row, List.append_assoc]

theorem runLines_bondc_rows : ∀ (bondS : List (Nat × String × String)) (st : FFState) (n : Nat),
    (∀ p ∈ bondS, (isMassTok p.2.1 && validFloat p.2.1 &&
      (isMassTok p.2.2 && validFloat p.2.2)) = true) →
    st.nbondTypes = some n → st.readBond = true →
    st.readPair = false → st.readAngle = false → st.readDihedral = false →
    st.readImproper = false →
    st.bondCoeffs.length + bondS.length = n → bondS ≠ [] →
    runLines st (bondS.map (fun p => [natToTok p.1, p.2.1, p.2.2])) =
      Except.ok { st with bondCoeffs := st.bondCoeffs ++ bondS.map mkCoeff2Row, readBond := false } := by
  intro bondS
  induction bondS with
  | nil =>
    intro st n hv hn hb hP hA hD hI hlen hne
    exact absurd rfl hne
  | cons p rest ih =>
    intro st n hv hn hb hP hA hD hI hlen hne
    obtain ⟨a, v1, v2⟩ := p
    have hpv := hv _ (List.mem_cons_self _ _)
    simp only [Bool.and_eq_true] at hpv
    have hstep := step_coeff2_bond st a v1 v2 hpv.1.1 hpv.1.2 hpv.2.1 hpv.2.2 n hn hb hP hA hD hI
    by_cases hrest : rest = []
    · subst hrest
      rw [if_pos (by simp at hlen; omega)] at hstep
      simp only [List.map_cons, List.map_nil, runLines, hstep]
      simp [mkCoeff2Row]
    · have hpos : 0 < rest.length := List.length_pos.mpr hrest
      rw [if_neg (by simp at hlen; omega)] at hstep
      simp only [List.map_cons, runLines, hstep]
      rw [ih { st with bondCoeffs := st.bondCoeffs ++ [[Val.vint (a : Nat), Val.vfloat v1, Val.vfloat v2]], readBond := true } n (fun q hq => hv q (by simp [hq])) hn rfl hP hA hD hI
        (by simp at hlen ⊢; omega) hrest]
      simp [mkCoeff2Row, List.append_assoc]

theorem runLines_anglec_rows : ∀ (angleS : List (Nat × String × String)) (st : FFState) (n : Nat),
    (∀ p ∈ angleS, (isMassTok p.2.1 && validFloat p.2.1 &&
      (isMassTok p.2.2 && validFloat p.2.2)) = true) →
    st.nangleTypes = some n → st.readAngle = true →
    st.readPair = false → st.readBond = false → st.readDihedral = false →
    st.readImproper = false →
    st.angleCoeffs.length + angleS.length = n → angleS ≠ [] →
    runLines st (angleS.map (fun p => [natToTok p.1, p.2.1, p.2.2])) =
      Except.ok { st with angleCoeffs := st.angleCoeffs ++ angleS.map mkCoeff2Row, readAngle := false } := by
  intro angleS
  induction angleS with
  | nil =>
    intro st n hv hn ha hP hB hD hI hlen hne
    exact absurd rfl hne
  | cons p rest ih =>
    intro st n hv hn ha hP hB hD hI hlen hne
    obtain ⟨a, v1, v2⟩ := p
    have hpv := hv _ (List.mem_cons_self _ _)
    simp only [Bool.and_eq_true] at hpv
    have hstep := step_coeff2_angle st a v1 v2 hpv.1.1 hpv.1.2 hpv.2.1 hpv.2.2 n hn ha hP hB hD hI
    by_cases hrest : rest = []
    · subst hrest
      rw [if_pos (by simp at hlen; omega)] at hstep
      simp only [List.map_cons, List.map_nil, runLines, hstep]
      simp [mkCoeff2Row]
    · have hpos : 0 < rest.length := List.length_pos.mpr hrest
      rw [if_neg (by simp at hlen; omega)] at hstep
      simp only [List.map_cons, runLines, hstep]
      rw [ih { st with angleCoeffs := st.angleCoeffs ++ [[Val.vint (a : Nat), Val.vfloat v1, Val.vfloat v2]], readAngle := true } n (fun q hq => hv q (by simp [hq])) hn rfl hP hB hD hI
        (by simp at hlen ⊢; omega) hrest]
      simp [mkCoeff2Row, List.append_assoc]

theorem runLines_dihc_rows : ∀ (dihcS : List (Nat × List String)) (st : FFState) (n : Nat),
    (∀ p ∈ dihcS, 2 ≤ p.2.length ∧
      p.2.all (fun s => isNumTok s && validFloat s && s.data.contains '.') = true) →
    st.ndihedralTypes = some n → st.readDihedral = true →
    st.readPair = false → st.readBond = false → st.readAngle = false →
    st.readImproper = false →
    st.dihedralCoeffs.length + dihcS.length = n → dihcS ≠ [] →
    runLines st (dihcS.map (fun p => natToTok p.1 :: p.2)) =
      Except.ok { st with dihedralCoeffs := st.dihedralCoeffs ++ dihcS.map mkMultiRow, readDihedral := false } := by
  intro dihcS
  induction dihcS with
  | nil =>
    intro st n hv hn hd hP hB hA hI hlen hne
    exact absurd rfl hne
  | cons p rest ih =>
    intro st n hv hn hd hP hB hA hI hlen hne
    obtain ⟨a, vs⟩ := p
    have hpv := hv _ (List.mem_cons_self _ _)
    have hstep := step_dihc_row st a vs hpv.1 hpv.2 n hn hd hP hB hA hI
    by_cases hrest : rest = []
    · subst hrest
      rw [if_pos (by simp at hlen; omega)] at hstep
      simp only [List.map_cons, List.map_nil, runLines, hstep]
      simp [mkMultiRow]
    · have hpos : 0 < rest.length := List.length_pos.mpr hrest
      rw [if_neg (by simp at hlen; omega)] at hstep
      simp only [List.map_cons, runLines, hstep]
      rw [ih { st with dihedralCoeffs := st.dihedralCoeffs ++ [Val.vint (a : Nat) :: vs.map Val.vfloat], readDihedral := true } n (fun q hq => hv q (by simp [hq])) hn rfl hP hB hA hI
        (by simp at hlen ⊢; omega) hrest]
      simp [mkMultiRow, List.append_assoc]

theorem runLines_cons_ok (st st2 : FFState) (l : List String) (ls : List (List String))
    (h : step st l = Except.ok st2) : runLines st (l :: ls) = runLines st2 ls := by
  simp only [runLines, h]

/-! Whole writer sections (blank line, header line, blank line, rows), with
the empty-section suppression of `set_lines_from_list` absorbed. -/

theorem runLines_masses_section (massesS : List (Nat × String)) (st : FFState)
    (h : ∀ p ∈ massesS, isMassTok p.2 = true ∧ validFloat p.2 = true)
    (hP : st.readPair = false) (hB : st.readBond = false) (hA : st.readAngle = false)
    (hD : st.readDihedral = false) (hI : st.readImproper = false) :
    runLines st (setLines ["Masses"] (massesS.map mkMassRow)) =
      Except.ok { st with atomicMasses := st.atomicMasses ++ massesS.map mkMassRow } := by
  by_cases hm : massesS = []
  · subst hm
    simp [setLines, runLines]
  · have hne : (massesS.map mkMassRow).isEmpty = false := by
      simp [hm]
    have hmap : (massesS.map mkMassRow).map renderRow
        = massesS.map (fun p => [natToTok p.1, p.2]) := by
      rw [List.map_map]
      apply List.map_congr_left
      intro p _
      exact renderRow_mkMassRow p
    simp only [setLines, hne, Bool.false_eq_true, if_false, List.cons_append, List.nil_append]
    rw [runLines_cons_ok st st [] _ (step_blank st),
      runLines_cons_ok st st ["Masses"] _ (step_one_tok st "Masses" hP hB hA hD hI),
      runLines_cons_ok st st [] _ (step_blank st), hmap]
    exact runLines_mass_rows massesS st h hP hB hA hD hI

theorem runLines_pair_section (pairS : List (Nat × String × String)) (st : FFState)
    (hv : ∀ p ∈ pairS, (isNumTok p.2.1 && validFloat p.2.1 &&
      (isNumTok p.2.2 && validFloat p.2.2)) = true)
    (hn : pairS ≠ [] → st.npairTypes = some pairS.length)
    (hpc : st.pairCoeffs = [])
    (hP : st.readPair = false) (hB : st.readBond = false) (hA : st.readAngle = false)
    (hD : st.readDihedral = false) (hI : st.readImproper = false) :
    runLines st (setLines ["Pair", "Coeffs"] (pairS.map mkCoeff2Row)) =
      Except.ok { st with pairCoeffs := st.pairCoeffs ++ pairS.map mkCoeff2Row, readPair := false } := by
  by_cases hm : pairS = []
  · subst hm
    simp only [List.map_nil, setLines, List.isEmpty_nil, if_true, runLines, List.append_nil]
    rw [← hP]
  · have hne : (pairS.map mkCoeff2Row).isEmpty = false := by
      simp [hm]
    have hmap : (pairS.map mkCoeff2Row).map renderRow
        = pairS.map (fun p => [natToTok p.1, p.2.1, p.2.2]) := by
      rw [List.map_map]
      apply List.map_congr_left
      intro p _
      exact renderRow_mkCoeff2Row p
    simp only [setLines, hne, Bool.false_eq_true, if_false, List.cons_append, List.nil_append]
    rw [runLines_cons_ok st st [] _ (step_blank st),
      runLines_cons_ok st { st with readPair := true } ["Pair", "Coeffs"] _ (step_header_pair st),
      runLines_cons_ok _ _ [] _ (step_blank _), hmap]
    rw [runLines_pair_rows pairS { st with readPair := true } pairS.length hv (hn hm) rfl
      hB hA hD hI (by simp [hpc]) hm]

theorem runLines_bondc_section (bondS : List (Nat × String × String)) (st : FFState)
    (hv : ∀ p ∈ bondS, (isMassTok p.2.1 && validFloat p.2.1 &&
      (isMassTok p.2.2 && validFloat p.2.2)) = true)
    (hn : bondS ≠ [] → st.nbondTypes = some bondS.length)
    (hbc : st.bondCoeffs = [])
    (hP : st.readPair = false) (hB : st.readBond = false) (hA : st.readAngle = false)
    (hD : st.readDihedral = false) (hI : st.readImproper = false) :
    runLines st (setLines ["Bond", "Coeffs"] (bondS.map mkCoeff2Row)) =
      Except.ok { st with bondCoeffs := st.bondCoeffs ++ bondS.map mkCoeff2Row, readBond := false } := by
  by_cases hm : bondS = []
  · subst hm
    simp only [List.map_nil, setLines, List.isEmpty_nil, if_true, runLines, List.append_nil]
    rw [← hB]
  · have hne : (bondS.map mkCoeff2Row).isEmpty = false := by
      simp [hm]
    have hmap : (bondS.map mkCoeff2Row).map renderRow
        = bondS.map (fun p => [natToTok p.1, p.2.1, p.2.2]) := by
      rw [List.map_map]
      apply List.map_congr_left
      intro p _
      exact renderRow_mkCoeff2Row p
    simp only [setLines, hne, Bool.false_eq_true, if_false, List.cons_append, List.nil_append]
    rw [runLines_cons_ok st st [] _ (step_blank st),
      runLines_cons_ok st { st with readBond := true } ["Bond", "Coeffs"] _
        (step_header_bond st hP),
      runLines_cons_ok _ _ [] _ (step_blank _), hmap]
    rw [runLines_bondc_rows bondS { st with readBond := true } bondS.length hv (hn hm) rfl
      hP hA hD hI (by simp [hbc]) hm]

theorem runLines_anglec_section (angleS : List (Nat × String × String)) (st : FFState)
    (hv : ∀ p ∈ angleS, (isMassTok p.2.1 && validFloat p.2.1 &&
      (isMassTok p.2.2 && validFloat p.2.2)) = true)
    (hn : angleS ≠ [] → st.nangleTypes = some angleS.length)
    (hac : st.angleCoeffs = [])
    (hP : st.readPair = false) (hB : st.readBond = false) (hA : st.readAngle = false)
    (hD : st.readDihedral = false) (hI : st.readImproper = false) :
    runLines st (setLines ["Angle", "Coeffs"] (angleS.map mkCoeff2Row)) =
      Except.ok { st with angleCoeffs := st.angleCoeffs ++ angleS.map mkCoeff2Row, readAngle := false } := by
  by_cases hm : angleS = []
  · subst hm
    simp only [List.map_nil, setLines, List.isEmpty_nil, if_true, runLines, List.append_nil]
    rw [← hA]
  · have hne : (angleS.map mkCoeff2Row).isEmpty = false := by
      simp [hm]
    have hmap : (angleS.map mkCoeff2Row).map renderRow
        = angleS.map (fun p => [natToTok p.1, p.2.1, p.2.2]) := by
      rw [List.map_map]
      apply List.map_congr_left
      intro p _
      exact renderRow_mkCoeff2Row p
    simp only [setLines, hne, Bool.false_eq_true, if_false, List.cons_append, List.nil_append]
    rw [runLines_cons_ok st st [] _ (step_blank st),
      runLines_cons_ok st { st with readAngle := true } ["Angle", "Coeffs"] _
        (step_header_angle st hP),
      runLines_cons_ok _ _ [] _ (step_blank _), hmap]
    rw [runLines_anglec_rows angleS { st with readAngle := true } angleS.length hv (hn hm) rfl
      hP hB hD hI (by simp [hac]) hm]

theorem runLines_dihc_section (dihcS : List (Nat × List String)) (st : FFState)
    (hv : ∀ p ∈ dihcS, 2 ≤ p.2.length ∧
      p.2.all (fun s => isNumTok s && validFloat s && s.data.contains '.') = true)
    (hn : dihcS ≠ [] → st.ndihedralTypes = some dihcS.length)
    (hdc : st.dihedralCoeffs = [])
    (hP : st.readPair = false) (hB : st.readBond = false) (hA : st.readAngle = false)
    (hD : st.readDihedral = false) (hI : st.readImproper = false) :
    runLines st (setLines ["Dihedral", "Coeffs"] (dihcS.map mkMultiRow)) =
      Except.ok { st with dihedralCoeffs := st.dihedralCoeffs ++ dihcS.map mkMultiRow, readDihedral := false } := by
  by_cases hm : dihcS = []
  · subst hm
    simp only [List.map_nil, setLines, List.isEmpty_nil, if_true, runLines, List.append_nil]
    rw [← hD]
  · have hne : (dihcS.map mkMultiRow).isEmpty = false := by
      simp [hm]
    have hmap : (dihcS.map mkMultiRow).map renderRow
        = dihcS.map (fun p => natToTok p.1 :: p.2) := by
      rw [List.map_map]
      apply List.map_congr_left
      intro p _
      exact renderRow_mkMultiRow p
    simp only [setLines, hne, Bool.false_eq_true, if_false, List.cons_append, List.nil_append]
    rw [runLines_cons_ok st st [] _ (step_blank st),
      runLines_cons_ok st { st with readDihedral := true } ["Dihedral", "Coeffs"] _
        (step_header_dihedral st hP),
      runLines_cons_ok _ _ [] _ (step_blank _), hmap]
    rw [runLines_dihc_rows dihcS { st with readDihedral := true } dihcS.length hv (hn hm) rfl
      hP hB hA hI (by simp [hdc]) hm]

theorem runLines_atoms_section (atomsS : List (Nat × Nat × Nat × String × String × String × String))
    (st : FFState)
    (h : ∀ p ∈ atomsS, (isNumTok p.2.2.2.1 && validFloat p.2.2.2.1 &&
      (isNumTok p.2.2.2.2.1 && validFloat p.2.2.2.2.1) &&
      (isNumTok p.2.2.2.2.2.1 && validFloat p.2.2.2.2.2.1) &&
      (isNumTok p.2.2.2.2.2.2 && validFloat p.2.2.2.2.2.2)) = true)
    (hP : st.readPair = false) (hB : st.readBond = false) (hA : st.readAngle = false)
    (hD : st.readDihedral = false) (hI : st.readImproper = false) :
    runLines st (setLines ["Atoms"] (atomsS.map mkAtomRow)) =
      Except.ok { st with atomsData := st.atomsData ++ atomsS.map mkAtomRow } := by
  by_cases hm : atomsS = []
  · subst hm
    simp [setLines, runLines]
  · have hne : (atomsS.map mkAtomRow).isEmpty = false := by
      simp [hm]
    have hmap : (atomsS.map mkAtomRow).map renderRow
        = atomsS.map (fun p => [natToTok p.1, natToTok p.2.1, natToTok p.2.2.1,
            p.2.2.2.1, p.2.2.2.2.1, p.2.2.2.2.2.1, p.2.2.2.2.2.2]) := by
      rw [List.map_map]
      apply List.map_congr_left
      intro p _
      exact renderRow_mkAtomRow p
    simp only [setLines, hne, Bool.false_eq_true, if_false, List.cons_append, List.nil_append]
    rw [runLines_cons_ok st st [] _ (step_blank st),
      runLines_cons_ok st st ["Atoms"] _ (step_one_tok st "Atoms" hP hB hA hD hI),
      runLines_cons_ok st st [] _ (step_blank st), hmap]
    exact runLines_atom_rows atomsS st h hP hB hA hD hI

theorem runLines_bonds_section (bondsS : List (Nat × Nat × Nat × Nat)) (st : FFState)
    (hP : st.readPair = false) (hB : st.readBond = false) (hA : st.readAngle = false)
    (hD : st.readDihedral = false) (hI : st.readImproper = false)
    (hat : st.atomsData.isEmpty = false) :
    runLines st (setLines ["Bonds"] (bondsS.map mkBondRow)) =
      Except.ok { st with bondsData := st.bondsData ++ bondsS.map mkBondRow } := by
  by_cases hm : bondsS = []
  · subst hm
    simp [setLines, runLines]
  · have hne : (bondsS.map mkBondRow).isEmpty = false := by
      simp [hm]
    have hmap : (bondsS.map mkBondRow).map renderRow
        = bondsS.map (fun p => [natToTok p.1, natToTok p.2.1, natToTok p.2.2.1,
            natToTok p.2.2.2]) := by
      rw [List.map_map]
      apply List.map_congr_left
      intro p _
      exact renderRow_mkBondRow p
    simp only [setLines, hne, Bool.false_eq_true, if_false, List.cons_append, List.nil_append]
    rw [runLines_cons_ok st st [] _ (step_blank st),
      runLines_cons_ok st st ["Bonds"] _ (step_one_tok st "Bonds" hP hB hA hD hI),
      runLines_cons_ok st st [] _ (step_blank st), hmap]
    exact runLines_bond_data_rows bondsS st hP hB hA hD hI hat

theorem runLines_angles_section (anglesS : List (Nat × Nat × Nat × Nat × Nat)) (st : FFState)
    (hP : st.readPair = false) (hB : st.readBond = false) (hA : st.readAngle = false)
    (hD : st.readDihedral = false) (hI : st.readImproper = false)
    (hat : st.atomsData.isEmpty = false) :
    runLines st (setLines ["Angles"] (anglesS.map mkAngleRow)) =
      Except.ok { st with anglesData := st.anglesData ++ anglesS.map mkAngleRow } := by
  by_cases hm : anglesS = []
  · subst hm
    simp [setLines, runLines]
  · have hne : (anglesS.map mkAngleRow).isEmpty = false := by
      simp [hm]
    have hmap : (anglesS.map mkAngleRow).map renderRow
        = anglesS.map (fun p => [natToTok p.1, natToTok p.2.1, natToTok p.2.2.1,
            natToTok p.2.2.2.1, natToTok p.2.2.2.2]) := by
      rw [List.map_map]
      apply List.map_congr_left
      intro p _
      exact renderRow_mkAngleRow p
    simp only [setLines, hne, Bool.false_eq_true, if_false, List.cons_append, List.nil_append]
    rw [runLines_cons_ok st st [] _ (step_blank st),
      runLines_cons_ok st st ["Angles"] _ (step_one_tok st "Angles" hP hB hA hD hI),
      runLines_cons_ok st st [] _ (step_blank st), hmap]
    exact runLines_angle_data_rows anglesS st hP hB hA hD hI hat

theorem runLines_dihs_section (dihsS : List (Nat × Nat × Nat × Nat × Nat × Nat)) (st : FFState)
    (hP : st.readPair = false) (hB : st.readBond = false) (hA : st.readAngle = false)
    (hD : st.readDihedral = false) (hI : st.readImproper = false)
    (hat : st.atomsData.isEmpty = false) :
    runLines st (setLines ["Dihedrals"] (dihsS.map mkDihRow)) =
      Except.ok { st with dihedralData := st.dihedralData ++ dihsS.map mkDihRow } := by
  by_cases hm : dihsS = []
  · subst hm
    simp [setLines, runLines]
  · have hne : (dihsS.map mkDihRow).isEmpty = false := by
      simp [hm]
    have hmap : (dihsS.map mkDihRow).map renderRow
        = dihsS.map (fun p => [natToTok p.1, natToTok p.2.1, natToTok p.2.2.1,
            natToTok p.2.2.2.1, natToTok p.2.2.2.2.1, natToTok p.2.2.2.2.2]) := by
      rw [List.map_map]
      apply List.map_congr_left
      intro p _
      exact renderRow_mkDihRow p
    simp only [setLines, hne, Bool.false_eq_true, if_false, List.cons_append, List.nil_append]
    rw [runLines_cons_ok st st [] _ (step_blank st),
      runLines_cons_ok st st ["Dihedrals"] _ (step_one_tok st "Dihedrals" hP hB hA hD hI),
      runLines_cons_ok st st [] _ (step_blank st), hmap]
    exact runLines_dih_data_rows dihsS st hP hB hA hD hI hat

set_option maxHeartbeats 2000000 in
/-- C1 (amended): the writer/parser round trip is exact for force-field
records whose rows are well-formed renderings (integer ids, float-shaped
values; bond/angle coefficient values restricted to the digits-and-dots
shape the parser's `general_coeff_pattern` accepts; dihedral coefficient
values containing a decimal point), provided the record has at least one
atom, pair coefficients are per atom type, there are no impropers, and a
record without dihedral data also carries no dihedral coefficients (the
writer suppresses the sections `from_file` would need to recover them). -/
theorem c1_roundtrip_amended (massesS : List (Nat × String))
    (pairS bondS angleS : List (Nat × String × String))
    (dihcS : List (Nat × List String))
    (atomsS : List (Nat × Nat × Nat × String × String × String × String))
    (bondsS : List (Nat × Nat × Nat × Nat)) (anglesS : List (Nat × Nat × Nat × Nat × Nat))
    (dihsS : List (Nat × Nat × Nat × Nat × Nat × Nat))
    (x1 x2 y1 y2 z1 z2 : String)
    (hbox : ([x1, x2, y1, y2, z1, z2].all (fun s => isNumTok s && validFloat s)) = true)
    (hmass : ∀ p ∈ massesS, isMassTok p.2 = true ∧ validFloat p.2 = true)
    (hpair : ∀ p ∈ pairS, (isNumTok p.2.1 && validFloat p.2.1 &&
      (isNumTok p.2.2 && validFloat p.2.2)) = true)
    (hbondc : ∀ p ∈ bondS, (isMassTok p.2.1 && validFloat p.2.1 &&
      (isMassTok p.2.2 && validFloat p.2.2)) = true)
    (hanglec : ∀ p ∈ angleS, (isMassTok p.2.1 && validFloat p.2.1 &&
      (isMassTok p.2.2 && validFloat p.2.2)) = true)
    (hdihc : ∀ p ∈ dihcS, 2 ≤ p.2.length ∧
      p.2.all (fun s => isNumTok s && validFloat s && s.data.contains '.') = true)
    (hatoms : ∀ p ∈ atomsS, (isNumTok p.2.2.2.1 && validFloat p.2.2.2.1 &&
      (isNumTok p.2.2.2.2.1 && validFloat p.2.2.2.2.1) &&
      (isNumTok p.2.2.2.2.2.1 && validFloat p.2.2.2.2.2.1) &&
      (isNumTok p.2.2.2.2.2.2 && validFloat p.2.2.2.2.2.2)) = true)
    (hane : atomsS ≠ [])
    (hpl : pairS = [] ∨ pairS.length = massesS.length)
    (hdg : dihsS = [] → dihcS = []) :
    ffFromLines (ffLines (mkFFData
      [(Val.vfloat x1, Val.vfloat x2), (Val.vfloat y1, Val.vfloat y2),
       (Val.vfloat z1, Val.vfloat z2)]
      (massesS.map mkMassRow) (pairS.map mkCoeff2Row) (bondS.map mkCoeff2Row)
      (angleS.map mkCoeff2Row) (dihcS.map mkMultiRow) [] (atomsS.map mkAtomRow)
      (bondsS.map mkBondRow) (anglesS.map mkAngleRow) (dihsS.map mkDihRow) [])) =
    Except.ok (mkFFData
      [(Val.vfloat x1, Val.vfloat x2), (Val.vfloat y1, Val.vfloat y2),
       (Val.vfloat z1, Val.vfloat z2)]
      (massesS.map mkMassRow) (pairS.map mkCoeff2Row) (bondS.map mkCoeff2Row)
      (angleS.map mkCoeff2Row) (dihcS.map mkMultiRow) [] (atomsS.map mkAtomRow)
      (bondsS.map mkBondRow) (anglesS.map mkAngleRow) (dihsS.map mkDihRow) []) := by
  have hb6 : ∀ s ∈ [x1, x2, y1, y2, z1, z2], isNumTok s = true ∧ validFloat s = true := by
    intro s hs
    have hs2 := List.all_eq_true.mp hbox s hs
    simpa [Bool.and_eq_true] using hs2
  have hx1 := hb6 x1 (by simp)
  have hx2 := hb6 x2 (by simp)
  have hy1 := hb6 y1 (by simp)
  have hy2 := hb6 y2 (by simp)
  have hz1 := hb6 z1 (by simp)
  have hz2 := hb6 z2 (by simp)
  have hnp : ∀ st : FFState, st.npairTypes = some (massesS.map mkMassRow).length →
      pairS ≠ [] → st.npairTypes = some pairS.length := by
    intro st hst hne2
    rcases hpl with h0 | h0
    · exact absurd h0 hne2
    · rw [hst]
      simp [h0]
  have hatne : (atomsS.map mkAtomRow).isEmpty = false := by
    simp [hane]
  cases dihsS with
  | nil =>
    have hdc0 : dihcS = [] := hdg rfl
    subst hdc0
    have hL : ffLines (mkFFData
        [(Val.vfloat x1, Val.vfloat x2), (Val.vfloat y1, Val.vfloat y2),
         (Val.vfloat z1, Val.vfloat z2)]
        (massesS.map mkMassRow) (pairS.map mkCoeff2Row) (bondS.map mkCoeff2Row)
        (angleS.map mkCoeff2Row) (([] : List (Nat × List String)).map mkMultiRow) []
        (atomsS.map mkAtomRow) (bondsS.map mkBondRow) (anglesS.map mkAngleRow)
        (([] : List (Nat × Nat × Nat × Nat × Nat × Nat)).map mkDihRow) []) =
        ["Data", "file", "generated", "by", "pymatgen"] :: [] ::
        [natToTok (atomsS.map mkAtomRow).length, "atoms"] ::
        [natToTok (bondsS.map mkBondRow).length, "bonds"] ::
        [natToTok (anglesS.map mkAngleRow).length, "angles"] :: [] ::
        [natToTok (massesS.map mkMassRow).length, "atom", "types"] ::
        [natToTok (bondS.map mkCoeff2Row).length, "bond", "types"] ::
        [natToTok (angleS.map mkCoeff2Row).length, "angle", "types"] :: [] ::
        [x1, x2, "xlo", "xhi"] :: [y1, y2, "ylo", "yhi"] :: [z1, z2, "zlo", "zhi"] ::
        (setLines ["Masses"] (massesS.map mkMassRow) ++
         (setLines ["Pair", "Coeffs"] (pairS.map mkCoeff2Row) ++
          (setLines ["Bond", "Coeffs"] (bondS.map mkCoeff2Row) ++
           (setLines ["Angle", "Coeffs"] (angleS.map mkCoeff2Row) ++
            (setLines ["Atoms"] (atomsS.map mkAtomRow) ++
             (setLines ["Bonds"] (bondsS.map mkBondRow) ++
              (setLines ["Angles"] (anglesS.map mkAngleRow) ++
               ([] : List (List String))))))))) := by
      simp [ffLines, mkFFData, boxTok, Val.render]
    rw [hL]
    simp only [ffFromLines]
    rw [runLines_cons_ok _ _ _ _ (step_title _ rfl rfl rfl rfl rfl),
      runLines_cons_ok _ _ _ _ (step_blank _),
      runLines_cons_ok _ _ _ _ (step_two_tok _ _ "atoms" (by decide) (by decide)
        rfl rfl rfl rfl rfl),
      runLines_cons_ok _ _ _ _ (step_two_tok _ _ "bonds" (by decide) (by decide)
        rfl rfl rfl rfl rfl),
      runLines_cons_ok _ _ _ _ (step_two_tok _ _ "angles" (by decide) (by decide)
        rfl rfl rfl rfl rfl),
      runLines_cons_ok _ _ _ _ (step_blank _),
      runLines_cons_ok _ _ _ _ (step_types_atom _ (massesS.map mkMassRow).length
        rfl rfl rfl rfl rfl),
      runLines_cons_ok _ _ _ _ (step_types_bond _ (bondS.map mkCoeff2Row).length
        rfl rfl rfl rfl rfl),
      runLines_cons_ok _ _ _ _ (step_types_angle _ (angleS.map mkCoeff2Row).length
        rfl rfl rfl rfl rfl),
      runLines_cons_ok _ _ _ _ (step_blank _),
      runLines_cons_ok _ _ _ _ (step_box_x _ x1 x2 hx1.1 hx1.2 hx2.1 hx2.2
        rfl rfl rfl rfl rfl),
      runLines_cons_ok _ _ _ _ (step_box_y _ y1 y2 hy1.1 hy1.2 hy2.1 hy2.2
        rfl rfl rfl rfl rfl),
      runLines_cons_ok _ _ _ _ (step_box_z _ z1 z2 hz1.1 hz1.2 hz2.1 hz2.2
        rfl rfl rfl rfl rfl)]
    rw [runLines_append_ok _ _ _ _
      (runLines_masses_section massesS _ hmass rfl rfl rfl rfl rfl)]
    rw [runLines_append_ok _ _ _ _
      (runLines_pair_section pairS _ hpair (hnp _ rfl) rfl rfl rfl rfl rfl rfl)]
    rw [runLines_append_ok _ _ _ _
      (runLines_bondc_section bondS _ hbondc (fun _ => by simp) rfl rfl rfl rfl rfl rfl)]
    rw [runLines_append_ok _ _ _ _
      (runLines_anglec_section angleS _ hanglec (fun _ => by simp) rfl rfl rfl rfl rfl rfl)]
    rw [runLines_append_ok _ _ _ _
      (runLines_atoms_section atomsS _ hatoms rfl rfl rfl rfl rfl)]
    rw [runLines_append_ok _ _ _ _
      (runLines_bonds_section bondsS _ rfl rfl rfl rfl rfl hatne)]
    rw [runLines_append_ok _ _ _ _
      (runLines_angles_section anglesS _ rfl rfl rfl rfl rfl hatne)]
    simp only [runLines]
    simp [mkFFData]
  | cons d0 drest =>
    have hL : ffLines (mkFFData
        [(Val.vfloat x1, Val.vfloat x2), (Val.vfloat y1, Val.vfloat y2),
         (Val.vfloat z1, Val.vfloat z2)]
        (massesS.map mkMassRow) (pairS.map mkCoeff2Row) (bondS.map mkCoeff2Row)
        (angleS.map mkCoeff2Row) (dihcS.map mkMultiRow) []
        (atomsS.map mkAtomRow) (bondsS.map mkBondRow) (anglesS.map mkAngleRow)
        ((d0 :: drest).map mkDihRow) []) =
        ["Data", "file", "generated", "by", "pymatgen"] :: [] ::
        [natToTok (atomsS.map mkAtomRow).length, "atoms"] ::
        [natToTok (bondsS.map mkBondRow).length, "bonds"] ::
        [natToTok (anglesS.map mkAngleRow).length, "angles"] ::
        [natToTok ((d0 :: drest).map mkDihRow).length, "dihedrals"] :: [] ::
        [natToTok (massesS.map mkMassRow).length, "atom", "types"] ::
        [natToTok (bondS.map mkCoeff2Row).length, "bond", "types"] ::
        [natToTok (angleS.map mkCoeff2Row).length, "angle", "types"] ::
        [natToTok (dihcS.map mkMultiRow).length, "dihedral", "types"] :: [] ::
        [x1, x2, "xlo", "xhi"] :: [y1, y2, "ylo", "yhi"] :: [z1, z2, "zlo", "zhi"] ::
        (setLines ["Masses"] (massesS.map mkMassRow) ++
         (setLines ["Pair", "Coeffs"] (pairS.map mkCoeff2Row) ++
          (setLines ["Bond", "Coeffs"] (bondS.map mkCoeff2Row) ++
           (setLines ["Angle", "Coeffs"] (angleS.map mkCoeff2Row) ++
            (setLines ["Dihedral", "Coeffs"] (dihcS.map mkMultiRow) ++
             (setLines ["Atoms"] (atomsS.map mkAtomRow) ++
              (setLines ["Bonds"] (bondsS.map mkBondRow) ++
               (setLines ["Angles"] (anglesS.map mkAngleRow) ++
                (setLines ["Dihedrals"] ((d0 :: drest).map mkDihRow) ++
                 ([] : List (List String))))))))))) := by
      simp [ffLines, mkFFData, boxTok, Val.render]
    rw [hL]
    simp only [ffFromLines]
    rw [runLines_cons_ok _ _ _ _ (step_title _ rfl rfl rfl rfl rfl),
      runLines_cons_ok _ _ _ _ (step_blank _),
      runLines_cons_ok _ _ _ _ (step_two_tok _ _ "atoms" (by decide) (by decide)
        rfl rfl rfl rfl rfl),
      runLines_cons_ok _ _ _ _ (step_two_tok _ _ "bonds" (by decide) (by decide)
        rfl rfl rfl rfl rfl),
      runLines_cons_ok _ _ _ _ (step_two_tok _ _ "angles" (by decide) (by decide)
        rfl rfl rfl rfl rfl),
      runLines_cons_ok _ _ _ _ (step_two_tok _ _ "dihedrals" (by decide) (by decide)
        rfl rfl rfl rfl rfl),
      runLines_cons_ok _ _ _ _ (step_blank _),
      runLines_cons_ok _ _ _ _ (step_types_atom _ (massesS.map mkMassRow).length
        rfl rfl rfl rfl rfl),
      runLines_cons_ok _ _ _ _ (step_types_bond _ (bondS.map mkCoeff2Row).length
        rfl rfl rfl rfl rfl),
      runLines_cons_ok _ _ _ _ (step_types_angle _ (angleS.map mkCoeff2Row).length
        rfl rfl rfl rfl rfl),
      runLines_cons_ok _ _ _ _ (step_types_dihedral _ (dihcS.map mkMultiRow).length
        rfl rfl rfl rfl rfl),
      runLines_cons_ok _ _ _ _ (step_blank _),
      runLines_cons_ok _ _ _ _ (step_box_x _ x1 x2 hx1.1 hx1.2 hx2.1 hx2.2
        rfl rfl rfl rfl rfl),
      runLines_cons_ok _ _ _ _ (step_box_y _ y1 y2 hy1.1 hy1.2 hy2.1 hy2.2
        rfl rfl rfl rfl rfl),
      runLines_cons_ok _ _ _ _ (step_box_z _ z1 z2 hz1.1 hz1.2 hz2.1 hz2.2
        rfl rfl rfl rfl rfl)]
    rw [runLines_append_ok _ _ _ _
      (runLines_masses_section massesS _ hmass rfl rfl rfl rfl rfl)]
    rw [runLines_append_ok _ _ _ _
      (runLines_pair_section pairS _ hpair (hnp _ rfl) rfl rfl rfl rfl rfl rfl)]
    rw [runLines_append_ok _ _ _ _
      (runLines_bondc_section bondS _ hbondc (fun _ => by simp) rfl rfl rfl rfl rfl rfl)]
    rw [runLines_append_ok _ _ _ _
      (runLines_anglec_section angleS _ hanglec (fun _ => by simp) rfl rfl rfl rfl rfl rfl)]
    rw [runLines_append_ok _ _ _ _
      (runLines_dihc_section dihcS _ hdihc (fun _ => by simp) rfl rfl rfl rfl rfl rfl)]
    rw [runLines_append_ok _ _ _ _
      (runLines_atoms_section atomsS _ hatoms rfl rfl rfl rfl rfl)]
    rw [runLines_append_ok _ _ _ _
      (runLines_bonds_section bondsS _ rfl rfl rfl rfl rfl hatne)]
    rw [runLines_append_ok _ _ _ _
      (runLines_angles_section anglesS _ rfl rfl rfl rfl rfl hatne)]
    rw [runLines_append_ok _ _ _ _
      (runLines_dihs_section (d0 :: drest) _ rfl rfl rfl rfl rfl hatne)]
    simp only [runLines]
    simp [mkFFData]

/-- A force-field record with one atom, one mass row, one improper row and
an otherwise empty topology: `__str__` then `from_file` does not recover
the improper record (the writer's Impropers rows are re-read as dihedral
rows, and `from_file` never fills `imdihedral_data`). -/
def c1Record : FFDataRec :=
  mkFFData [(Val.vint 0, Val.vint 1), (Val.vint 0, Val.vint 1), (Val.vint 0, Val.vint 1)]
    [[Val.vint 1, Val.vfloat "1.0"]] [] [] [] [] []
    [[Val.vint 1, Val.vint 1, Val.vint 1, Val.vfloat "0.0", Val.vfloat "0.0",
      Val.vfloat "0.0", Val.vfloat "0.0"]]
    [] [] []
    [[Val.vint 1, Val.vint 1, Val.vint 1, Val.vint 1, Val.vint 1, Val.vint 1]]

/-- C1: counterexample.  Serializing `c1Record` (which has `nimdihs = 1`)
and parsing the text back yields a record with `nimdihs = 0`: the
bonded-record counts are not preserved by the round trip. -/
theorem c1_roundtrip_counterexample :
    (ffFromLines (ffLines c1Record)).map FFDataRec.nimdihs = Except.ok 0 ∧
    c1Record.nimdihs = 1 := by
  constructor
  · rfl
  · rfl

theorem c1_roundtrip_amended_witness :
    ffFromLines (ffLines (mkFFData
      [(Val.vfloat "0.0", Val.vfloat "10.0"), (Val.vfloat "0.0", Val.vfloat "10.0"),
       (Val.vfloat "0.0", Val.vfloat "10.0")]
      ([(1, "12.0")].map mkMassRow) ([(1, "1.0", "2.0")].map mkCoeff2Row)
      ([(1, "1.5", "2.5")].map mkCoeff2Row) (([] : List (Nat × String × String)).map mkCoeff2Row)
      ([(1, ["1.0", "2.0"])].map mkMultiRow) []
      ([(1, 1, 1, "0.5", "0.5", "0.5", "0.5")].map mkAtomRow)
      ([(1, 1, 1, 2)].map mkBondRow) (([] : List (Nat × Nat × Nat × Nat × Nat)).map mkAngleRow)
      ([(1, 1, 1, 2, 3, 4)].map mkDihRow) [])) =
    Except.ok (mkFFData
      [(Val.vfloat "0.0", Val.vfloat "10.0"), (Val.vfloat "0.0", Val.vfloat "10.0"),
       (Val.vfloat "0.0", Val.vfloat "10.0")]
      ([(1, "12.0")].map mkMassRow) ([(1, "1.0", "2.0")].map mkCoeff2Row)
      ([(1, "1.5", "2.5")].map mkCoeff2Row) (([] : List (Nat × String × String)).map mkCoeff2Row)
      ([(1, ["1.0", "2.0"])].map mkMultiRow) []
      ([(1, 1, 1, "0.5", "0.5", "0.5", "0.5")].map mkAtomRow)
      ([(1, 1, 1, 2)].map mkBondRow) (([] : List (Nat × Nat × Nat × Nat × Nat)).map mkAngleRow)
      ([(1, 1, 1, 2, 3, 4)].map mkDihRow) []) :=
  c1_roundtrip_amended [(1, "12.0")] [(1, "1.0", "2.0")] [(1, "1.5", "2.5")] []
    [(1, ["1.0", "2.0"])] [(1, 1, 1, "0.5", "0.5", "0.5", "0.5")] [(1, 1, 1, 2)] []
    [(1, 1, 1, 2, 3, 4)] "0.0" "10.0" "0.0" "10.0" "0.0" "10.0"
    (by decide) (by decide) (by decide) (by decide) (by decide) (by decide) (by decide)
    (List.cons_ne_nil _ _) (by decide) (by decide)

/-! ## C2: totality of the parser -/

/-- Lines on which every branch of the `from_file` loop is a no-op: blank
lines, single tokens, and two-token lines whose second token is neither of
the digits-and-dots mass shape nor a token starting with `coeffs`. -/
def benignLine (l : List String) : Bool :=
  match l with
  | [] => true
  | [_] => true
  | [_, w] => !(isMassTok w) && !("coeffs".data.isPrefixOf (lowerTok w))
  | _ => false

/-- `Except.ok`-ness of a parse result, as a Boolean. -/
def parseSucceeded (e : Except String FFDataRec) : Bool :=
  match e with
  | Except.ok _ => true
  | Except.error _ => false

/-- C2: counterexample.  On the two-line input `Pair Coeffs` / `x` the
parser raises (line 655: `float("x")` inside the active pair-coefficient
branch), so it is not true that every malformed line is silently ignored. -/
theorem c2_parser_totality_counterexample :
    parseSucceeded (ffFromLines [["Pair", "Coeffs"], ["x"]]) = false := by rfl

/-- C2 (amended): the parser is silent only outside the convert-or-crash
branches: an input of blank lines, single tokens, and two-token lines whose
second token neither looks like a float nor starts a coefficient heading is
wholly ignored and produces the empty record without error (whereas a junk
line inside an active coefficient section raises, see the counterexample). -/
theorem c2_parser_totality_amended (lines : List (List String))
    (hb : ∀ l ∈ lines, benignLine l = true) :
    ffFromLines lines = Except.ok (mkFFData [] [] [] [] [] [] [] [] [] [] [] []) := by
  have key : ∀ (ls : List (List String)) (st : FFState), (∀ l ∈ ls, benignLine l = true) →
      st.readPair = false → st.readBond = false → st.readAngle = false →
      st.readDihedral = false → st.readImproper = false →
      runLines st ls = Except.ok st := by
    intro ls
    induction ls with
    | nil =>
      intro st hbs hP hB hA hD hI
      rfl
    | cons l ls2 ih =>
      intro st hbs hP hB hA hD hI
      have hbl := hbs l (List.mem_cons_self _ _)
      have hstep : step st l = Except.ok st := by
        match l with
        | [] => exact step_blank st
        | [w] => exact step_one_tok st w hP hB hA hD hI
        | [a, w] =>
            simp only [benignLine, Bool.and_eq_true, Bool.not_eq_true'] at hbl
            exact step_two_tok st a w hbl.1 hbl.2 hP hB hA hD hI
        | a :: b :: c :: r => simp [benignLine] at hbl
      rw [runLines_cons_ok st st l ls2 hstep]
      exact ih st (fun l2 hl2 => hbs l2 (by simp [hl2])) hP hB hA hD hI
  simp only [ffFromLines, key lines {} hb rfl rfl rfl rfl rfl]

theorem c2_parser_totality_amended_witness :
    ffFromLines [["LAMMPS", "data"], [], ["5", "atoms"], ["header"]] =
      Except.ok (mkFFData [] [] [] [] [] [] [] [] [] [] [] []) :=
  c2_parser_totality_amended [["LAMMPS", "data"], [], ["5", "atoms"], ["header"]] (by decide)

/-! ## C10: mass-shaped rows inside active coefficient sections -/

/-- C10: counterexample.  A mass-shaped row (`1 2.5`) inside an active
`Bond Coeffs` section is appended to the mass table only: the pattern-based
bond-coefficient branch (line 663) requires three groups, so the active
coefficient table stays empty.  The claim's "appended to both" holds for
the token-based pair section but not for the bond section. -/
theorem c10_mass_row_in_section_counterexample :
    (ffFromLines [["2", "bond", "types"], ["Bond", "Coeffs"], ["1", "2.5"]]).map
      (fun d => (d.atomicMasses, d.bondCoeffs)) =
    Except.ok ([[Val.vint 1, Val.vfloat "2.5"]], ([] : List Row)) := by rfl

/-- C10 (amended): a mass-shaped row during an active *pair* section is
appended to both the mass table and the pair-coefficient table (the
mass-row branch is unconditional and the token-based pair branch accepts
any int-plus-floats row), while the same row during an active *bond*
section is appended to the mass table only (the pattern-based bond branch
requires exactly three groups). -/
theorem c10_mass_row_in_section_amended (st1 st2 : FFState) (t : Nat) (m : String) (n : Nat)
    (him : isMassTok m = true) (hv : validFloat m = true)
    (h1n : st1.npairTypes = some n) (h1p : st1.readPair = true)
    (h1B : st1.readBond = false) (h1A : st1.readAngle = false)
    (h1D : st1.readDihedral = false) (h1I : st1.readImproper = false)
    (h2b : st2.readBond = true) (h2P : st2.readPair = false) (h2A : st2.readAngle = false)
    (h2D : st2.readDihedral = false) (h2I : st2.readImproper = false) :
    step st1 [natToTok t, m] = Except.ok
      { st1 with
        atomicMasses := st1.atomicMasses ++ [[Val.vint (t : Nat), Val.vfloat m]]
        pairCoeffs := st1.pairCoeffs ++ [[Val.vint (t : Nat), Val.vfloat m]]
        readPair := if st1.pairCoeffs.length + 1 ≥ n then false else true } ∧
    step st2 [natToTok t, m] = Except.ok
      { st2 with atomicMasses := st2.atomicMasses ++ [[Val.vint (t : Nat), Val.vfloat m]] } :=
  ⟨step_mass_row_during_pair st1 t m him hv n h1n h1p h1B h1A h1D h1I,
   step_mass_row_during_bond st2 t m him hv h2b h2P h2A h2D h2I⟩

theorem c10_mass_row_in_section_amended_witness :
    step { npairTypes := some 5, readPair := true } [natToTok 3, "1.5"] = Except.ok
      { npairTypes := some 5, readPair := true,
        atomicMasses := [[Val.vint 3, Val.vfloat "1.5"]],
        pairCoeffs := [[Val.vint 3, Val.vfloat "1.5"]] } ∧
    step { readBond := true } [natToTok 3, "1.5"] = Except.ok
      { readBond := true, atomicMasses := [[Val.vint 3, Val.vfloat "1.5"]] } := by
  have h := c10_mass_row_in_section_amended { npairTypes := some 5, readPair := true }
    { readBond := true } 3 "1.5" 5 (by decide) (by decide) rfl rfl rfl rfl rfl rfl
    rfl rfl rfl rfl rfl
  exact ⟨h.1.trans (by rfl), h.2.trans (by rfl)⟩

/-! ## C4: which count lines the writer emits -/

theorem mem_gated {P : Prop} [Decidable P] (xs : List (List String)) (l : List String)
    (h : l ∈ if P then xs else []) : P ∧ l ∈ xs := by
  split at h
  · exact ⟨by assumption, h⟩
  · simp at h

end LammpsVerif
